import Mathlib

/-!
Verification of the UAE mortgage comparison engine
(backend/calculator.py) against its natural-language specification.

The Python source is shallowly embedded: floats become exact rationals,
dict lookups and list indexing become Option/Except-valued operations,
and the month-by-month simulation loop becomes a fuel-indexed recursion
(the fuel is exactly the remaining number of horizon months, so the
embedded loop performs the same iterations as the source loop).
-/

namespace Mortgage

/-- Decidable equality on Except, used to evaluate the embedded engine on
concrete inputs inside proofs. -/
instance {ε α : Type} [DecidableEq ε] [DecidableEq α] : DecidableEq (Except ε α)
  | Except.ok a, Except.ok b =>
    if h : a = b then Decidable.isTrue (by rw [h])
    else Decidable.isFalse (by intro he; cases he; exact h rfl)
  | Except.ok _, Except.error _ => Decidable.isFalse (by intro h; cases h)
  | Except.error _, Except.ok _ => Decidable.isFalse (by intro h; cases h)
  | Except.error e, Except.error e2 =>
    if h : e = e2 then Decidable.isTrue (by rw [h])
    else Decidable.isFalse (by intro he; cases he; exact h rfl)

/-- Python round(x, 2): round half to even (bankers rounding) at the
second decimal digit, modelled exactly on rationals.  This returns the
integer nearest to x, ties going to the even integer. -/
def roundHalfEven (x : ℚ) : ℤ :=
  if x - (Int.floor x : ℚ) < 1/2 then Int.floor x
  else if 1/2 < x - (Int.floor x : ℚ) then Int.floor x + 1
  else if Int.floor x % 2 = 0 then Int.floor x else Int.floor x + 1

/-- Python round(x, 2) on an exact rational. -/
def pyRound2 (x : ℚ) : ℚ := (roundHalfEven (x * 100) : ℚ) / 100

/-- Python ** with an int exponent, on exact rationals. -/
def qpow (q : ℚ) (n : ℤ) : ℚ :=
  if 0 ≤ n then q ^ n.toNat else (q ^ (-n).toNat)⁻¹

/-- Python dict lookup d[k] for a string-keyed dict, as an Option. -/
def dict_get {α : Type} (l : List (String × α)) (k : String) : Option α :=
  match l with
  | [] => none
  | (k1, v) :: rest => if k1 = k then some v else dict_get rest k

/-- Turn an Option into an Except, the way a Python dict raises KeyError. -/
def expectSome {α : Type} (o : Option α) (msg : String) : Except String α :=
  match o with
  | some v => Except.ok v
  | none => Except.error msg

/-- Python truthiness helper: s or d for strings (empty string is falsy). -/
def strOr (s d : String) : String := if s = "" then d else s

/-- Python truthiness helper: v or d for ints (zero is falsy). -/
def intOr (v d : ℤ) : ℤ := if v = 0 then d else v

/-- Python truthiness helper: o or d for an optional string. -/
def optStrOr (o : Option String) (d : String) : String :=
  match o with
  | none => d
  | some s => if s = "" then d else s

/-- Python truthiness helper: o or d for an optional int. -/
def optIntOr (o : Option ℤ) (d : ℤ) : ℤ :=
  match o with
  | none => d
  | some v => if v = 0 then d else v

/-- A fee dict: type label, amount in AED, timing (upfront, monthly, annual). -/
structure Fee where
  ftype : String
  amount_aed : ℚ
  timing : String
deriving DecidableEq, Repr

/-- A prepayment event dict: 1-indexed month, extra amount, method. -/
structure Prepayment where
  month : ℤ
  amount : ℚ
  method : String
deriving DecidableEq, Repr

/-- The Terms dataclass from calculator.py. -/
structure Terms where
  bank : String
  index_type : String
  margin_bps : ℚ
  floor_rate_annual : ℚ
  reset_freq_months : ℤ
  life_insurance_method : String := "none"
  life_insurance_value : ℚ := 0
  fees : List Fee := []
  es_percent : ℚ := 0
  es_cap_aed : ℚ := 0
  fixed_rate_annual : Option ℚ := none
  fixed_months : Option ℤ := none
  reversion_index_type : Option String := none
  reversion_margin_bps : Option ℚ := none
deriving DecidableEq, Repr

/-- One row of the monthly ledger produced by run_option. -/
structure MonthlyRecord where
  month : ℕ
  option : String
  emi : ℚ
  interest : ℚ
  principal_paid : ℚ
  fees : ℚ
  insurance : ℚ
  principal_remaining : ℚ
deriving DecidableEq, Repr, Inhabited

/-- The dict returned by run_option. -/
structure RunResult where
  cashflows : List MonthlyRecord
  total_cash : ℚ
  applied_upfront_fees : ℚ
  fees_list : List Fee
deriving DecidableEq, Repr, Inhabited

/-- The summary block of the compare result. -/
structure Summary where
  stay_total_cash_out_aed : ℚ
  switch_total_cash_out_aed : ℚ
  break_even_month : Option ℕ
  recommendation : String
  assumptions_note : String
deriving DecidableEq, Repr, Inhabited

/-- The dict returned by compare. -/
structure CompareResult where
  summary : Summary
  monthly_cashflows : List MonthlyRecord
  fees_stay : List Fee
  fees_switch : List Fee
  upfront_stay : ℚ
  upfront_switch : ℚ
deriving DecidableEq, Repr, Inhabited

/-- The early_settlement sub-dict of the current terms. -/
structure EarlySettlement where
  percent_of_outstanding : ℚ
  cap_aed : ℚ
deriving DecidableEq, Repr

/-- The current_terms sub-dict of the input payload.  Option fields are
the ones compare reads with a .get default. -/
structure CurrentTermsInput where
  bank : String
  index_type : String
  margin_bps : ℚ
  floor_rate_annual : Option ℚ
  reset_freq_months : ℤ
  life_insurance_method : Option String
  life_insurance_value : Option ℚ
  fees : Option (List Fee)
  early_settlement : Option EarlySettlement
deriving DecidableEq, Repr

/-- The new_offer sub-dict of the input payload. -/
structure NewOfferInput where
  bank : String
  reversion_index_type : Option String
  reversion_margin_bps : Option ℚ
  floor_rate_annual : Option ℚ
  reset_freq_months : Option ℤ
  fees : Option (List Fee)
  fixed_rate_annual : ℚ
  fixed_months : ℤ
  life_insurance_method : Option String
  life_insurance_value : Option ℚ
deriving DecidableEq, Repr

/-- The full input payload to compare (ScenarioInput). -/
structure CompareInput where
  principal_aed : ℚ
  tenure_months : ℤ
  horizon_months : ℤ
  prepayment_plan : List Prepayment
  rate_scenarios_base : List (String × List ℚ)
  auto_estimate_buyout_fees : Option Bool
  recompute_policy : Option String
  current_terms : CurrentTermsInput
  new_offer : NewOfferInput
deriving DecidableEq, Repr

/-- calculator.emi: closed-form amortized monthly payment.  Python raises
ZeroDivisionError when the divisor is zero; the embedding returns an error
in exactly those cases. -/
def emi (principal monthly_rate : ℚ) (months : ℤ) : Except String ℚ :=
  if monthly_rate = 0 then
    if months = 0 then Except.error "ZeroDivisionError"
    else Except.ok (principal / (months : ℚ))
  else
    let factor := qpow (1 + monthly_rate) months
    if factor - 1 = 0 then Except.error "ZeroDivisionError"
    else Except.ok (principal * monthly_rate * factor / (factor - 1))

/-- calculator.clamp. -/
def clamp (x floor : ℚ) : ℚ := max x floor

/-- calculator.insurance_cost. -/
def insurance_cost (method : String) (value outstanding : ℚ) : ℚ :=
  if method = "percent_of_outstanding" then outstanding * (value / 12)
  else if method = "fixed_monthly" then value
  else 0

/-- calculator.monthly_index: 1-indexed curve lookup with flat
extrapolation past the end.  On an empty curve the source evaluates
rate_curve[-1], which raises IndexError; all call sites pass m at least 1. -/
def monthly_index (rate_curve : List ℚ) (m : ℕ) : Except String ℚ :=
  if h : m - 1 < rate_curve.length then Except.ok (rate_curve.get ⟨m - 1, h⟩)
  else
    match rate_curve.getLast? with
    | some v => Except.ok v
    | none => Except.error "IndexError: list index out of range"

/-- calculator.estimate_buyout_fees_if_missing. -/
def estimate_buyout_fees_if_missing (principal : ℚ) (provided_fees : List Fee) : List Fee :=
  let provided_types := provided_fees.map (fun f => f.ftype)
  (if "processing_fee" ∈ provided_types then []
   else [{ ftype := "processing_fee", amount_aed := min (1 / 100 * principal) 10000, timing := "upfront" }]) ++
  (if "valuation_fee" ∈ provided_types then []
   else [{ ftype := "valuation_fee", amount_aed := 2500, timing := "upfront" }]) ++
  (if "dld_fee" ∈ provided_types then []
   else [{ ftype := "dld_fee", amount_aed := 25 / 10000 * principal + 290, timing := "upfront" }]) ++
  (if "trustee_fee" ∈ provided_types then []
   else [{ ftype := "trustee_fee", amount_aed := 4200, timing := "upfront" }]) ++
  (if "mortgage_registration_fee" ∈ provided_types then []
   else [{ ftype := "mortgage_registration_fee", amount_aed := 2000, timing := "upfront" }])

/-- calculator.estimate_release_and_liability_if_missing. -/
def estimate_release_and_liability_if_missing (provided_fees : List Fee) : List Fee :=
  let provided_types := provided_fees.map (fun f => f.ftype)
  (if "release_letter_fee" ∈ provided_types then []
   else [{ ftype := "release_letter_fee", amount_aed := 1000, timing := "upfront" }]) ++
  (if "liability_letter_fee" ∈ provided_types then []
   else [{ ftype := "liability_letter_fee", amount_aed := 100, timing := "upfront" }])

/-- The rate_for_month closure inside run_option.  It is a pure function
of the option tag, the two Terms, the curves dict and the month, failing
exactly where Python raises (missing dict key, empty curve). -/
def rate_for_month (option : String) (current newT : Terms)
    (curves : List (String × List ℚ)) (m : ℕ) : Except String ℚ :=
  if option = "stay" then do
    let idx_curve ← expectSome (dict_get curves current.index_type) "KeyError"
    let iv ← monthly_index idx_curve m
    Except.ok ((clamp iv current.floor_rate_annual + current.margin_bps / 10000) / 12)
  else
    if (m : ℤ) ≤ optIntOr newT.fixed_months 0 then
      Except.ok ((newT.fixed_rate_annual.getD 0) / 12)
    else do
      let idx_curve ← expectSome
        (dict_get curves (optStrOr newT.reversion_index_type "EIBOR_3M")) "KeyError"
      let iv ← monthly_index idx_curve ((m : ℤ) - optIntOr newT.fixed_months 0).toNat
      Except.ok ((clamp iv newT.floor_rate_annual + (newT.reversion_margin_bps.getD 0) / 10000) / 12)

/-- The per-iteration environment of the run_option while loop: everything
the loop body reads but never writes. -/
structure LoopEnv where
  tenure : ℤ
  option : String
  current : Terms
  newT : Terms
  terms : Terms
  curves : List (String × List ℚ)
  policy : String
  prepay : List Prepayment
  monthly_fee_sum : ℚ
  annual_fee_sum : ℚ
deriving DecidableEq, Repr

/-- Recomputing the rate and payment (lines 128-129 and 131-132 of
calculator.py): resolve the annual rate for the month and take the
closed-form payment on the current balance over the remaining tenure. -/
def rpu_recompute (env : LoopEnv) (m : ℕ) (elapsed : ℕ) (p : ℚ) :
    Except String (ℚ × ℚ) := do
  let mr ← rate_for_month env.option env.current env.newT env.curves m
  let ev ← emi p mr (env.tenure - (elapsed : ℤ))
  Except.ok (mr, ev)

/-- The reset frequency used by the recompute decision (line 126): the
current terms frequency for stay; for switch the new offer frequency with
the Python zero-is-falsy fallback to 3. -/
def reset_freq (env : LoopEnv) : ℤ :=
  if env.option = "stay" then env.current.reset_freq_months
  else intOr env.newT.reset_freq_months 3

/-- The rate/payment recompute decision at the top of the loop body
(lines 125-132 of calculator.py).  Under on_reset_only it recomputes at
month 1 or when (m - 1) mod reset_freq is 0 (Python short-circuits the
m == 1 test before the modulo, so reset_freq = 0 only raises from month 2
on); under any other policy it always recomputes. -/
def rate_payment_update (env : LoopEnv) (m : ℕ) (elapsed : ℕ)
    (p mrate emi_val : ℚ) : Except String (ℚ × ℚ) :=
  if env.policy = "on_reset_only" then
    if m = 1 then rpu_recompute env m elapsed p
    else if reset_freq env = 0 then Except.error "ZeroDivisionError"
    else if ((m : ℤ) - 1) % reset_freq env = 0 then rpu_recompute env m elapsed p
    else Except.ok (mrate, emi_val)
  else rpu_recompute env m elapsed p

/-- Python dict comprehension prepay_map built from the prepayment plan:
for duplicate months the last entry wins, which is the last matching
element of the list. -/
def prepay_find (l : List Prepayment) (m : ℕ) : Option Prepayment :=
  l.reverse.find? (fun pp => pp.month == (m : ℤ))

/-- The prepayment application step inside the loop body (lines 141-146
of calculator.py): reduce the balance by at most the outstanding amount
and, for the reduce_emi method, recompute the payment over the remaining
tenure at the current rate. -/
def apply_prepay (l : List Prepayment) (m : ℕ) (mr : ℚ) (months : ℤ)
    (p1 ev : ℚ) : Except String (ℚ × ℚ) :=
  match prepay_find l m with
  | none => Except.ok (p1, ev)
  | some pp =>
    let amount := min pp.amount p1
    let p2 := p1 - amount
    if pp.method = "reduce_emi" then do
      let e2 ← emi p2 mr months
      Except.ok (p2, e2)
    else Except.ok (p2, ev)

/-- The post-paydown balance of the month (lines 134-136 of
calculator.py): interest is p * mr, principal_paid is the nonnegative
part of ev - interest, and the balance is floored at 0. -/
def paydown (p mr ev : ℚ) : ℚ := max 0 (p - max 0 (ev - p * mr))

/-- The fee charge of month elapsed + 1 (line 139): monthly fees plus the
annual fees on anniversary months. -/
def month_fees (env : LoopEnv) (elapsed : ℕ) : ℚ :=
  env.monthly_fee_sum + (if (elapsed + 1) % 12 = 1 then env.annual_fee_sum else 0)

/-- The insurance charge on a post-paydown balance (line 138). -/
def month_insurance (env : LoopEnv) (p1 : ℚ) : ℚ :=
  insurance_cost (strOr env.terms.life_insurance_method "none")
    env.terms.life_insurance_value p1

/-- The ledger row appended for month elapsed + 1 (lines 148-157), with
ru the rate/payment pair after the recompute decision and step the
balance/payment pair after the prepayment application. -/
def month_entry (env : LoopEnv) (elapsed : ℕ) (p : ℚ) (ru step : ℚ × ℚ) : MonthlyRecord :=
  { month := elapsed + 1, option := env.option, emi := pyRound2 step.2,
    interest := pyRound2 (p * ru.1),
    principal_paid := pyRound2 (max 0 (ru.2 - p * ru.1)),
    fees := pyRound2 (month_fees env elapsed),
    insurance := pyRound2 (month_insurance env (paydown p ru.1 ru.2)),
    principal_remaining := pyRound2 step.1 }

/-- The while loop of run_option (lines 123-160 of calculator.py).  The
fuel argument counts the months left before the horizon, so the guard
months_elapsed less than horizon_months is the fuel being positive; the
other two guard conjuncts are tested explicitly.  Returns the ledger
built in this and later iterations together with the final total_cash. -/
def run_loop (env : LoopEnv) :
    ℕ → ℕ → ℚ → ℚ → ℚ → ℚ → Except String (List MonthlyRecord × ℚ)
  | 0, _, _, _, _, total => Except.ok ([], total)
  | fuel + 1, elapsed, p, mrate, emi_val, total =>
    if 0 < p ∧ (elapsed : ℤ) < env.tenure then do
      let ru ← rate_payment_update env (elapsed + 1) elapsed p mrate emi_val
      let step ← apply_prepay env.prepay (elapsed + 1) ru.1 (env.tenure - (elapsed : ℤ))
        (paydown p ru.1 ru.2) ru.2
      let res ← run_loop env fuel (elapsed + 1) step.1 ru.1 step.2
        (total + step.2 + month_fees env elapsed + month_insurance env (paydown p ru.1 ru.2))
      Except.ok (month_entry env elapsed p ru step :: res.1, res.2)
    else Except.ok ([], total)

/-- Sum of the amounts of the fees with a given timing, as accumulated by
the fee classification loop of run_option (lines 93-99). -/
def fee_sum (l : List Fee) (t : String) : ℚ :=
  ((l.filter (fun f => f.timing == t)).map (fun f => f.amount_aed)).sum

/-- The fee list assembled by run_option before the loop (lines 79-91):
the option terms own fees, then for the switch option the auto-estimated
buyout fees (checked against the switch fee list) and the release and
liability letter fees (checked against the current terms fees), then the
early-settlement penalty of the old bank. -/
def assemble_fees (principal : ℚ) (option : String) (current : Terms) (terms : Terms)
    (auto_estimate_buyout_fees : Bool) : List Fee :=
  let fees_list0 := terms.fees
  let fees_list1 :=
    if option = "switch" ∧ auto_estimate_buyout_fees then
      fees_list0 ++ estimate_buyout_fees_if_missing principal fees_list0 ++
        estimate_release_and_liability_if_missing current.fees
    else fees_list0
  if option = "switch" ∧ 0 < current.es_percent then
    let es_fee0 := principal * current.es_percent
    let es_fee := if 0 < current.es_cap_aed then min es_fee0 current.es_cap_aed else es_fee0
    fees_list1 ++ [{ ftype := "early_settlement_penalty_old_bank", amount_aed := es_fee,
                     timing := "upfront" }]
  else fees_list1

/-- Line 78 of calculator.py: the Terms the option runs under. -/
def option_terms (option : String) (current newT : Terms) : Terms :=
  if option = "stay" then current else newT

/-- The full fee list of the option run. -/
def option_fees (principal : ℚ) (option : String) (current newT : Terms)
    (auto : Bool) : List Fee :=
  assemble_fees principal option current (option_terms option current newT) auto

/-- The loop environment run_option hands to its while loop. -/
def run_env (principal : ℚ) (tenure : ℤ) (prepayments : List Prepayment)
    (option : String) (current newT : Terms) (curves : List (String × List ℚ))
    (policy : String) (auto : Bool) : LoopEnv :=
  { tenure := tenure, option := option, current := current, newT := newT,
    terms := option_terms option current newT,
    curves := curves, policy := policy, prepay := prepayments,
    monthly_fee_sum := fee_sum (option_fees principal option current newT auto) "monthly",
    annual_fee_sum := fee_sum (option_fees principal option current newT auto) "annual" }

/-- calculator.run_option. -/
def run_option (principal : ℚ) (tenure_months horizon_months : ℤ)
    (prepayments : List Prepayment) (option : String) (current newT : Terms)
    (curves : List (String × List ℚ)) (recompute_policy : String)
    (auto_estimate_buyout_fees : Bool) : Except String RunResult := do
  let mrate ← rate_for_month option current newT curves 1
  let emi_val ← emi principal mrate tenure_months
  let res ← run_loop
    (run_env principal tenure_months prepayments option current newT curves
      recompute_policy auto_estimate_buyout_fees)
    horizon_months.toNat 0 principal mrate emi_val
    (fee_sum (option_fees principal option current newT auto_estimate_buyout_fees) "upfront")
  Except.ok
    { cashflows := res.1, total_cash := pyRound2 res.2,
      applied_upfront_fees :=
        pyRound2 (fee_sum (option_fees principal option current newT auto_estimate_buyout_fees) "upfront"),
      fees_list := option_fees principal option current newT auto_estimate_buyout_fees }

/-- The break-even fold of compare (lines 212-219): walk the two ledgers
in lock-step, accumulate each option's monthly cost and record the first
1-indexed month where the cumulative switch cost is at most the
cumulative stay cost. -/
def be_fold : List (MonthlyRecord × MonthlyRecord) → ℕ → ℚ → ℚ → Option ℕ → Option ℕ
  | [], _, _, _, be => be
  | (s, w) :: rest, idx, cum_stay, cum_switch, be =>
    let cs := cum_stay + s.emi + s.fees + s.insurance
    let cw := cum_switch + w.emi + w.fees + w.insurance
    let be1 := if be = none ∧ cw ≤ cs then some (idx + 1) else be
    be_fold rest (idx + 1) cs cw be1

/-- Break-even month from the two ledgers; the zip runs over the
overlapping length, like the Python loop over range(min(len, len)). -/
def break_even_of (stay_cf switch_cf : List MonthlyRecord) : Option ℕ :=
  be_fold (stay_cf.zip switch_cf) 0 0 0 none

/-- Terms built by compare for the stay option (lines 180-191). -/
def build_current_terms (cur : CurrentTermsInput) : Terms :=
  { bank := cur.bank, index_type := cur.index_type, margin_bps := cur.margin_bps,
    floor_rate_annual := cur.floor_rate_annual.getD 0,
    reset_freq_months := cur.reset_freq_months,
    life_insurance_method := cur.life_insurance_method.getD "none",
    life_insurance_value := cur.life_insurance_value.getD 0,
    fees := cur.fees.getD [],
    es_percent := (cur.early_settlement.getD { percent_of_outstanding := 0, cap_aed := 0 }).percent_of_outstanding,
    es_cap_aed := (cur.early_settlement.getD { percent_of_outstanding := 0, cap_aed := 0 }).cap_aed }

/-- Terms built by compare for the switch option (lines 192-205).  Note
that the source fills life_insurance_method and life_insurance_value from
the current terms dict, not from the new offer. -/
def build_new_terms (cur : CurrentTermsInput) (new : NewOfferInput) : Terms :=
  { bank := new.bank,
    index_type := new.reversion_index_type.getD "EIBOR_3M",
    margin_bps := new.reversion_margin_bps.getD 0,
    floor_rate_annual := new.floor_rate_annual.getD 0,
    reset_freq_months := new.reset_freq_months.getD 3,
    life_insurance_method := cur.life_insurance_method.getD "none",
    life_insurance_value := cur.life_insurance_value.getD 0,
    fees := new.fees.getD [],
    fixed_rate_annual := some new.fixed_rate_annual,
    fixed_months := some new.fixed_months,
    reversion_index_type := some (new.reversion_index_type.getD "EIBOR_3M"),
    reversion_margin_bps := some (new.reversion_margin_bps.getD 0) }

/-- Assembling the compare result dict from the two option runs
(lines 212-240 of calculator.py). -/
def assemble (stay switch : RunResult) : CompareResult :=
  { summary :=
      { stay_total_cash_out_aed := stay.total_cash,
        switch_total_cash_out_aed := switch.total_cash,
        break_even_month := break_even_of stay.cashflows switch.cashflows,
        recommendation := if switch.total_cash < stay.total_cash then "switch" else "stay",
        assumptions_note := "Base scenario with automatic UAE buyout fee estimates applied." },
    monthly_cashflows := stay.cashflows ++ switch.cashflows,
    fees_stay := stay.fees_list,
    fees_switch := switch.fees_list,
    upfront_stay := stay.applied_upfront_fees,
    upfront_switch := switch.applied_upfront_fees }

/-- calculator.compare. -/
def compare (input : CompareInput) : Except String CompareResult := do
  let c1 ← expectSome (dict_get input.rate_scenarios_base "EIBOR_1M") "KeyError: EIBOR_1M"
  let c3 ← expectSome (dict_get input.rate_scenarios_base "EIBOR_3M") "KeyError: EIBOR_3M"
  let stay ← run_option input.principal_aed input.tenure_months input.horizon_months
    input.prepayment_plan "stay" (build_current_terms input.current_terms)
    (build_new_terms input.current_terms input.new_offer)
    [("EIBOR_1M", c1), ("EIBOR_3M", c3)]
    (input.recompute_policy.getD "on_reset_only")
    (input.auto_estimate_buyout_fees.getD true)
  let switch ← run_option input.principal_aed input.tenure_months input.horizon_months
    input.prepayment_plan "switch" (build_current_terms input.current_terms)
    (build_new_terms input.current_terms input.new_offer)
    [("EIBOR_1M", c1), ("EIBOR_3M", c3)]
    (input.recompute_policy.getD "on_reset_only")
    (input.auto_estimate_buyout_fees.getD true)
  Except.ok (assemble stay switch)

/-- The total-function value of the closed-form amortized payment; emi
returns exactly this value whenever it does not raise. -/
def emiValue (principal monthly_rate : ℚ) (months : ℤ) : ℚ :=
  if monthly_rate = 0 then principal / (months : ℚ)
  else principal * monthly_rate * qpow (1 + monthly_rate) months /
    (qpow (1 + monthly_rate) months - 1)

/-- The per-month cost a ledger row contributes to the cumulative
comparison: rounded payment plus rounded fees plus rounded insurance. -/
def month_cost (r : MonthlyRecord) : ℚ := r.emi + r.fees + r.insurance

/-- Cumulative cost of the first k ledger rows. -/
def cum_cost (l : List MonthlyRecord) (k : ℕ) : ℚ := ((l.take k).map month_cost).sum

/-- Cumulative stay cost over the first k months of the zipped walk. -/
def zip_cum_fst (z : List (MonthlyRecord × MonthlyRecord)) (k : ℕ) : ℚ :=
  ((z.take k).map (fun q => month_cost q.1)).sum

/-- Cumulative switch cost over the first k months of the zipped walk. -/
def zip_cum_snd (z : List (MonthlyRecord × MonthlyRecord)) (k : ℕ) : ℚ :=
  ((z.take k).map (fun q => month_cost q.2)).sum

def curve_update (l : List (String × List ℚ)) (k : String) (v : List ℚ) :
    List (String × List ℚ) :=
  l.map (fun kv => if kv.1 = k then (kv.1, v) else kv)

/-- The five standard UAE refinance buyout fees with their standard
amounts, as the specification lists them. -/
def std_buyout_fees (principal : ℚ) : List Fee :=
  [{ ftype := "processing_fee", amount_aed := min (1 / 100 * principal) 10000, timing := "upfront" },
   { ftype := "valuation_fee", amount_aed := 2500, timing := "upfront" },
   { ftype := "dld_fee", amount_aed := 25 / 10000 * principal + 290, timing := "upfront" },
   { ftype := "trustee_fee", amount_aed := 4200, timing := "upfront" },
   { ftype := "mortgage_registration_fee", amount_aed := 2000, timing := "upfront" }]

/-- The release-letter and liability-letter fees with their standard
amounts. -/
def std_letter_fees : List Fee :=
  [{ ftype := "release_letter_fee", amount_aed := 1000, timing := "upfront" },
   { ftype := "liability_letter_fee", amount_aed := 100, timing := "upfront" }]

/-- Extract the ok value of an Except, defaulting on error; used to name
concrete evaluation results in witnesses. -/
def okOr {α : Type} [Inhabited α] (x : Except String α) : α :=
  match x with
  | Except.ok a => a
  | Except.error _ => default

/-- A baseline current-terms input used by the concrete scenarios. -/
def terms_cur_base : CurrentTermsInput :=
  { bank := "OldBank", index_type := "EIBOR_1M", margin_bps := 0, floor_rate_annual := some 0,
    reset_freq_months := 12, life_insurance_method := none, life_insurance_value := none,
    fees := none, early_settlement := none }

/-- A baseline new-offer input used by the concrete scenarios. -/
def offer_new_base : NewOfferInput :=
  { bank := "NewBank", reversion_index_type := some "EIBOR_3M", reversion_margin_bps := some 0,
    floor_rate_annual := some 0, reset_freq_months := some 3, fees := none,
    fixed_rate_annual := 0, fixed_months := 36, life_insurance_method := none,
    life_insurance_value := none }

/-- A baseline scenario: 1000 AED over 2 months, horizon 2, flat zero
curves, no fees, no prepayments, automatic fee estimation off. -/
def input_base : CompareInput :=
  { principal_aed := 1000, tenure_months := 2, horizon_months := 2, prepayment_plan := [],
    rate_scenarios_base := [("EIBOR_1M", [0]), ("EIBOR_3M", [0])],
    auto_estimate_buyout_fees := some false, recompute_policy := none,
    current_terms := terms_cur_base, new_offer := offer_new_base }

/-- A concrete loop environment for the C6 witness. -/
def env_c6 : LoopEnv :=
  { tenure := 12, option := "stay",
    current := { bank := "A", index_type := "EIBOR_1M", margin_bps := 0,
                 floor_rate_annual := 0, reset_freq_months := 3 },
    newT := { bank := "B", index_type := "EIBOR_3M", margin_bps := 0,
              floor_rate_annual := 0, reset_freq_months := 3 },
    terms := { bank := "A", index_type := "EIBOR_1M", margin_bps := 0,
               floor_rate_annual := 0, reset_freq_months := 3 },
    curves := [("EIBOR_1M", [5/100]), ("EIBOR_3M", [4/100])],
    policy := "on_reset_only", prepay := [], monthly_fee_sum := 0, annual_fee_sum := 0 }

/-- A scenario in which switching is strictly cheaper. -/
def input_c7 : CompareInput :=
  { input_base with current_terms := { terms_cur_base with margin_bps := 100 } }

def res_c7 : CompareResult := okOr (compare input_c7)

/-- A scenario whose EIBOR_1M curve is the empty series while the stay
option is indexed to EIBOR_1M. -/
def input_c1 : CompareInput :=
  { input_base with rate_scenarios_base := [("EIBOR_1M", ([] : List ℚ)), ("EIBOR_3M", [0])] }

/-- A scenario where the new offer carries its own life insurance
(fixed_monthly 100) while the current terms carry none. -/
def offer_c2 : NewOfferInput :=
  { offer_new_base with
      life_insurance_method := some "fixed_monthly",
      life_insurance_value := some 100 }

def input_c2 : CompareInput :=
  { input_base with new_offer := offer_c2 }

def curves_w : List (String × List ℚ) := [("EIBOR_1M", [5/100]), ("EIBOR_3M", [4/100])]

def res_c5 : CompareResult := okOr (compare input_c7)

/-- A scenario with an absurd negative fixed rate on the new offer. -/
def offer_c8 : NewOfferInput :=
  { offer_new_base with fixed_rate_annual := -36, reset_freq_months := some 2 }

def input_c8 : CompareInput :=
  { input_base with new_offer := offer_c8 }

def res_c8 : CompareResult := okOr (compare input_base)

/-- Scenario with a horizon shorter than the tenure: the loop stops after
one month with 500 outstanding. -/
def inC3a : CompareInput := { input_base with horizon_months := 1 }

def offer_c3neg : NewOfferInput :=
  { offer_new_base with fixed_rate_annual := -36, reset_freq_months := some 2 }

/-- Scenario with a negative fixed rate: the balance never decreases. -/
def inC3b : CompareInput := { input_base with new_offer := offer_c3neg }

def ppC3 : Prepayment := { month := 1, amount := 0, method := "reduce_emi" }

/-- Scenario with a reduce_emi prepayment of amount 0 at month 1: the
recomputed payment is spread over tenure_months - months_elapsed months
although the current month was already paid, so the balance lands on 200
instead of 0 at the tenure. -/
def inC3c : CompareInput :=
  { input_base with
    principal_aed := 900, tenure_months := 3, horizon_months := 3,
    prepayment_plan := [ppC3] }

def res_c3 : RunResult :=
  okOr (run_option 1000 2 2 [] "stay" (build_current_terms terms_cur_base)
    (build_new_terms terms_cur_base offer_new_base)
    [("EIBOR_1M", [0]), ("EIBOR_3M", [0])] "on_reset_only" false)

def relFee1000 : Fee :=
  { ftype := "release_letter_fee", amount_aed := 1000, timing := "upfront" }

def feeC4 : Fee := { ftype := "release_letter_fee", amount_aed := 999, timing := "upfront" }

def offer_c4 : NewOfferInput := { offer_new_base with fees := some [feeC4] }

/-- Scenario where the switch offer itself already lists a
release_letter_fee, yet the standard 1000 AED release-letter fee is still
synthesized because the code checks the current terms' fee list. -/
def inC4 : CompareInput :=
  { input_base with new_offer := offer_c4, auto_estimate_buyout_fees := some true }

def res_c4 : RunResult :=
  okOr (run_option 1000 2 2 [] "switch" (build_current_terms terms_cur_base)
    (build_new_terms terms_cur_base offer_new_base)
    [("EIBOR_1M", [0]), ("EIBOR_3M", [0])] "on_reset_only" true)

/-- An upfront fee of a type none of the estimators know, with amount on
the 1/50 grid so that its rounded sum is exact. -/
def extraFee (k : ℤ) : Fee :=
  { ftype := "extra_upfront_fee", amount_aed := (k : ℚ) / 50, timing := "upfront" }

/-- The same comparison input with one extra upfront fee appended to the
current terms' fee list. -/
def add_cur_upfront (input : CompareInput) (k : ℤ) : CompareInput :=
  { input with current_terms :=
      { input.current_terms with
        fees := some (input.current_terms.fees.getD [] ++ [extraFee k]) } }

def offer_c10a : NewOfferInput :=
  { offer_new_base with fixed_rate_annual := 0, fixed_months := 36 }

/-- A scenario where the switch payments are cheaper every month (so the
break-even month is 1) but the synthesized switch upfront fees exceed the
saving, so the total recommendation is stay. -/
def inC10a : CompareInput :=
  { principal_aed := 500000, tenure_months := 3, horizon_months := 3, prepayment_plan := [],
    rate_scenarios_base := [("EIBOR_1M", [6/100]), ("EIBOR_3M", [6/100])],
    auto_estimate_buyout_fees := some true, recompute_policy := none,
    current_terms := terms_cur_base, new_offer := offer_c10a }

def megaFee : Fee :=
  { ftype := "mega_processing_fee", amount_aed := 1000000, timing := "upfront" }

def terms_c10b : CurrentTermsInput := { terms_cur_base with fees := some [megaFee] }

def offer_c10b : NewOfferInput :=
  { offer_new_base with fixed_rate_annual := 12/100, fixed_months := 36 }

/-- A scenario where the switch payments are dearer every month (so there
is no break-even month) but a huge upfront fee on the current terms makes
the stay total larger, so the recommendation is switch. -/
def inC10b : CompareInput :=
  { input_base with current_terms := terms_c10b, new_offer := offer_c10b }

def res_c10 : CompareResult := okOr (compare input_base)

/-! Basic lemmas: Except plumbing, rounding, and the closed-form annuity
payment. -/
attribute [local semireducible] Rat.mul Rat.add Rat.inv Rat.sub

/-- Unfolding a successful Except bind. -/
lemma bind_eq_ok {α β : Type} {x : Except String α} {f : α → Except String β} {b : β} :
    x >>= f = Except.ok b ↔ ∃ a, x = Except.ok a ∧ f a = Except.ok b := by
  cases x <;> simp [Bind.bind, Except.bind]

/-- Unfolding a successful expectSome. -/
lemma expectSome_eq_ok {α : Type} {o : Option α} {msg : String} {a : α} :
    expectSome o msg = Except.ok a ↔ o = some a := by
  cases o <;> simp [expectSome]

lemma floor_le_roundHalfEven (x : ℚ) : Int.floor x ≤ roundHalfEven x := by
  unfold roundHalfEven; split_ifs <;> omega

lemma roundHalfEven_le_floor_add_one (x : ℚ) : roundHalfEven x ≤ Int.floor x + 1 := by
  unfold roundHalfEven; split_ifs <;> omega

/-- Bankers rounding is monotone. -/
lemma roundHalfEven_mono {x y : ℚ} (h : x ≤ y) : roundHalfEven x ≤ roundHalfEven y := by
  rcases lt_or_eq_of_le (Int.floor_le_floor h) with hf | hf
  · calc roundHalfEven x ≤ Int.floor x + 1 := roundHalfEven_le_floor_add_one x
      _ ≤ Int.floor y := by omega
      _ ≤ roundHalfEven y := floor_le_roundHalfEven y
  · have hxy : x - (Int.floor x : ℚ) ≤ y - (Int.floor y : ℚ) := by
      rw [← hf]; linarith
    unfold roundHalfEven
    rw [← hf]
    split_ifs <;> first | omega | linarith

/-- Rounding to two decimals is monotone. -/
lemma pyRound2_mono {x y : ℚ} (h : x ≤ y) : pyRound2 x ≤ pyRound2 y := by
  unfold pyRound2
  have h1 : roundHalfEven (x * 100) ≤ roundHalfEven (y * 100) :=
    roundHalfEven_mono (by linarith)
  have h2 : (roundHalfEven (x * 100) : ℚ) ≤ (roundHalfEven (y * 100) : ℚ) := by
    exact_mod_cast h1
  linarith

lemma pyRound2_zero : pyRound2 0 = 0 := by decide

lemma pyRound2_nonneg {x : ℚ} (h : 0 ≤ x) : 0 ≤ pyRound2 x := by
  have h2 := pyRound2_mono h
  rwa [pyRound2_zero] at h2

/-- Shifting by an even integer commutes with bankers rounding (an even
shift preserves the parity used by the tie-breaking branch). -/
lemma roundHalfEven_add_even (x : ℚ) (k : ℤ) (hk : k % 2 = 0) :
    roundHalfEven (x + (k : ℚ)) = roundHalfEven x + k := by
  unfold roundHalfEven
  rw [Int.floor_add_int]
  have hc : ((Int.floor x + k : ℤ) : ℚ) = (Int.floor x : ℚ) + (k : ℚ) := by push_cast; ring
  rw [hc]
  have h1 : x + (k : ℚ) - ((Int.floor x : ℚ) + (k : ℚ)) = x - (Int.floor x : ℚ) := by ring
  rw [h1]
  have h2 : (Int.floor x + k) % 2 = Int.floor x % 2 := by omega
  rw [h2]
  split_ifs <;> omega

/-- Adding a whole number of even cents commutes with round(x, 2). -/
lemma pyRound2_add_fifty (x : ℚ) (k : ℤ) :
    pyRound2 (x + (k : ℚ) / 50) = pyRound2 x + (k : ℚ) / 50 := by
  unfold pyRound2
  have h1 : (x + (k : ℚ) / 50) * 100 = x * 100 + ((2 * k : ℤ) : ℚ) := by push_cast; ring
  rw [h1, roundHalfEven_add_even _ (2 * k) (by omega)]
  push_cast; ring

lemma qpow_toNat (q : ℚ) (n : ℤ) (h : 0 ≤ n) : qpow q n = q ^ n.toNat := by
  simp [qpow, h]

lemma one_lt_qpow {r : ℚ} {n : ℤ} (hr : 0 < r) (hn : 1 ≤ n) : 1 < qpow (1 + r) n := by
  rw [qpow_toNat _ _ (by omega)]
  exact one_lt_pow (by linarith) (by omega)

/-- With a nonnegative rate and at least one remaining month, emi
succeeds and returns emiValue. -/
lemma emi_eq_ok {p r : ℚ} {n : ℤ} (hr : 0 ≤ r) (hn : 1 ≤ n) :
    emi p r n = Except.ok (emiValue p r n) := by
  unfold emi emiValue
  rcases eq_or_lt_of_le hr with h0 | hpos
  · rw [if_pos h0.symm, if_pos h0.symm, if_neg (by omega : ¬ n = 0)]
  · have hr0 : r ≠ 0 := ne_of_gt hpos
    have hf : 1 < qpow (1 + r) n := one_lt_qpow hpos hn
    rw [if_neg hr0, if_neg hr0, if_neg (by intro hc; linarith)]

lemma emiValue_smul (p r : ℚ) (n : ℤ) : emiValue p r n = p * emiValue 1 r n := by
  unfold emiValue; split_ifs <;> ring

lemma emiValue_one_nonneg {r : ℚ} {n : ℤ} (hr : 0 ≤ r) (hn : 1 ≤ n) :
    0 ≤ emiValue 1 r n := by
  unfold emiValue
  rcases eq_or_lt_of_le hr with h0 | hpos
  · rw [if_pos h0.symm]
    positivity
  · have hf : 1 < qpow (1 + r) n := one_lt_qpow hpos hn
    rw [if_neg (ne_of_gt hpos)]
    apply div_nonneg (by nlinarith) (by linarith)

lemma emiValue_nonneg {p r : ℚ} {n : ℤ} (hp : 0 ≤ p) (hr : 0 ≤ r) (hn : 1 ≤ n) :
    0 ≤ emiValue p r n := by
  rw [emiValue_smul]
  exact mul_nonneg hp (emiValue_one_nonneg hr hn)

lemma emiValue_mono_p {p1 p2 r : ℚ} {n : ℤ} (h : p1 ≤ p2) (hr : 0 ≤ r) (hn : 1 ≤ n) :
    emiValue p1 r n ≤ emiValue p2 r n := by
  rw [emiValue_smul p1, emiValue_smul p2]
  exact mul_le_mul_of_nonneg_right h (emiValue_one_nonneg hr hn)

/-- The amortized payment covers the interest of the month. -/
lemma emiValue_ge_interest {p r : ℚ} {n : ℤ} (hp : 0 ≤ p) (hr : 0 ≤ r) (hn : 1 ≤ n) :
    p * r ≤ emiValue p r n := by
  unfold emiValue
  rcases eq_or_lt_of_le hr with h0 | hpos
  · rw [if_pos h0.symm, ← h0]
    have : (0 : ℚ) < (n : ℚ) := by exact_mod_cast (by omega : (0 : ℤ) < n)
    rw [mul_zero]
    positivity
  · have hf : 1 < qpow (1 + r) n := one_lt_qpow hpos hn
    rw [if_neg (ne_of_gt hpos), le_div_iff (by linarith)]
    nlinarith [mul_nonneg hp hr]

lemma emiValue_last (p r : ℚ) (hr : 0 ≤ r) : emiValue p r 1 = p * (1 + r) := by
  unfold emiValue
  rcases eq_or_lt_of_le hr with h0 | hpos
  · rw [if_pos h0.symm, ← h0]
    norm_num
  · have h1 : qpow (1 + r) 1 = 1 + r := by
      rw [qpow_toNat _ _ (by omega)]
      norm_num
    rw [if_neg (ne_of_gt hpos), h1]
    have hr0 : r ≠ 0 := ne_of_gt hpos
    field_simp
    ring

/-- One scheduled payment step preserves the payment: paying emiValue on
balance p over n months leaves a balance whose (n-1)-month payment is the
same emiValue. -/
lemma emiValue_one_step {r : ℚ} {n : ℤ} (hr : 0 ≤ r) (hn : 2 ≤ n) :
    (1 + r - emiValue 1 r n) * emiValue 1 r (n - 1) = emiValue 1 r n := by
  unfold emiValue
  rcases eq_or_lt_of_le hr with h0 | hpos
  · rw [if_pos h0.symm, if_pos h0.symm, ← h0]
    have hn1 : ((n : ℚ)) ≠ 0 := by
      exact_mod_cast (by omega : (n : ℤ) ≠ 0)
    have hn2 : ((n : ℚ)) - 1 ≠ 0 :=
      sub_ne_zero.mpr (by exact_mod_cast (by omega : (n : ℤ) ≠ 1))
    have hc : ((n - 1 : ℤ) : ℚ) = (n : ℚ) - 1 := by push_cast; ring
    rw [hc]
    field_simp
    ring
  · have hr0 : r ≠ 0 := ne_of_gt hpos
    rw [if_neg hr0, if_neg hr0]
    have hk : n.toNat = (n - 1).toNat + 1 := by omega
    have hsplit : qpow (1 + r) n = qpow (1 + r) (n - 1) * (1 + r) := by
      rw [qpow_toNat _ _ (by omega), qpow_toNat _ _ (by omega), hk, pow_succ]
    have ha : 1 < qpow (1 + r) (n - 1) := one_lt_qpow hpos (by omega)
    have hf : 1 < qpow (1 + r) n := one_lt_qpow hpos (by omega)
    have ha0 : qpow (1 + r) (n - 1) - 1 ≠ 0 := by linarith
    have hf0 : qpow (1 + r) n - 1 ≠ 0 := by linarith
    rw [hsplit] at hf0 ⊢
    set a := qpow (1 + r) (n - 1) with hadef
    field_simp
    ring

lemma emiValue_step {p r : ℚ} {n : ℤ} (hr : 0 ≤ r) (hn : 2 ≤ n) :
    emiValue (p * (1 + r) - emiValue p r n) r (n - 1) = emiValue p r n := by
  rw [emiValue_smul p r n, emiValue_smul _ r (n - 1)]
  have h := emiValue_one_step hr hn
  linear_combination p * h

/-- Key invariant step: if the current payment E is at least the exact
amortized payment over n months, then after one interest/principal split
and balance update the exact payment over the remaining n - 1 months is
still at most E. -/
lemma payment_step {p E r : ℚ} {n : ℤ} (hp : 0 ≤ p) (hr : 0 ≤ r) (hn : 2 ≤ n)
    (hE : emiValue p r n ≤ E) :
    emiValue (max 0 (p - max 0 (E - p * r))) r (n - 1) ≤ E := by
  have hint : p * r ≤ emiValue p r n := emiValue_ge_interest hp hr (by omega)
  have h1 : max 0 (E - p * r) = E - p * r := max_eq_right (by linarith)
  rw [h1]
  have hEnn : 0 ≤ E := le_trans (emiValue_nonneg hp hr (by omega)) hE
  by_cases hc : p - (E - p * r) ≤ 0
  · rw [max_eq_left hc, emiValue_smul]
    simpa using hEnn
  · push_neg at hc
    rw [max_eq_right hc.le]
    have hq : p - (E - p * r) ≤ p * (1 + r) - emiValue p r n := by nlinarith
    calc emiValue (p - (E - p * r)) r (n - 1)
        ≤ emiValue (p * (1 + r) - emiValue p r n) r (n - 1) :=
          emiValue_mono_p hq hr (by omega)
      _ = emiValue p r n := emiValue_step hr hn
      _ ≤ E := hE

/-- In the final month of the schedule the payment clears the balance. -/
lemma payment_last {p E r : ℚ} (hp : 0 ≤ p) (hr : 0 ≤ r)
    (hE : emiValue p r 1 ≤ E) :
    max 0 (p - max 0 (E - p * r)) = 0 := by
  have hlast : emiValue p r 1 = p * (1 + r) := emiValue_last p r hr
  have hint : p * r ≤ emiValue p r 1 := emiValue_ge_interest hp hr (by omega)
  rw [max_eq_right (show (0 : ℚ) ≤ E - p * r by linarith)]
  apply max_eq_left
  nlinarith

/-! Lemmas about the simulation loop. -/

lemma ok_bind {α β : Type} (a : α) (f : α → Except String β) :
    (Except.ok a : Except String α) >>= f = f a := rfl

lemma insurance_cost_nonneg {method : String} {value out : ℚ} (hv : 0 ≤ value)
    (ho : 0 ≤ out) : 0 ≤ insurance_cost method value out := by
  unfold insurance_cost
  split_ifs <;> positivity

lemma prepay_find_mem {l : List Prepayment} {m : ℕ} {pp : Prepayment}
    (h : prepay_find l m = some pp) : pp ∈ l := by
  unfold prepay_find at h
  exact List.mem_reverse.mp (List.mem_of_find?_eq_some h)

/-- Bounds on the post-paydown balance: it stays in the interval from 0
to the incoming balance. -/
lemma paydown_bounds {p : ℚ} (a : ℚ) (hp : 0 ≤ p) :
    0 ≤ max 0 (p - max 0 a) ∧ max 0 (p - max 0 a) ≤ p := by
  constructor
  · exact le_max_left 0 _
  · exact max_le hp (by linarith [le_max_left (0 : ℚ) a])

/-- Bounds on the balance after the prepayment step. -/
lemma apply_prepay_bounds {l : List Prepayment} {m : ℕ} {mr : ℚ} {months : ℤ}
    {p1 ev : ℚ} {s : ℚ × ℚ} (hp : 0 ≤ p1)
    (hamt : ∀ pp ∈ l, 0 ≤ pp.amount)
    (h : apply_prepay l m mr months p1 ev = Except.ok s) :
    0 ≤ s.1 ∧ s.1 ≤ p1 := by
  unfold apply_prepay at h
  split at h
  · simp only [Except.ok.injEq] at h
    rw [← h]
    exact ⟨hp, le_refl p1⟩
  · next pp hfind =>
    have ha := hamt pp (prepay_find_mem hfind)
    have hmin1 : 0 ≤ min pp.amount p1 := le_min ha hp
    have hmin2 : min pp.amount p1 ≤ p1 := min_le_right _ _
    split_ifs at h
    · obtain ⟨e2, he2, h2⟩ := bind_eq_ok.mp h
      simp only [Except.ok.injEq] at h2
      rw [← h2]
      refine ⟨?_, ?_⟩
      · show (0 : ℚ) ≤ p1 - min pp.amount p1
        linarith
      · show p1 - min pp.amount p1 ≤ p1
        linarith
    · simp only [Except.ok.injEq] at h
      rw [← h]
      refine ⟨?_, ?_⟩
      · show (0 : ℚ) ≤ p1 - min pp.amount p1
        linarith
      · show p1 - min pp.amount p1 ≤ p1
        linarith

/-- The loop runs at most fuel iterations, one ledger row each. -/
lemma run_loop_length {env : LoopEnv} :
    ∀ {fuel elapsed : ℕ} {p mrate ev total : ℚ} {recs : List MonthlyRecord} {fin : ℚ},
    run_loop env fuel elapsed p mrate ev total = Except.ok (recs, fin) →
    recs.length ≤ fuel := by
  intro fuel
  induction fuel with
  | zero =>
    intro elapsed p mrate ev total recs fin h
    simp only [run_loop, Except.ok.injEq, Prod.mk.injEq] at h
    simp [← h.1]
  | succ fuel ih =>
    intro elapsed p mrate ev total recs fin h
    rw [run_loop] at h
    split_ifs at h
    · obtain ⟨ru, hru, h⟩ := bind_eq_ok.mp h
      obtain ⟨step, hstep, h⟩ := bind_eq_ok.mp h
      obtain ⟨res, hres, h⟩ := bind_eq_ok.mp h
      simp only [Except.ok.injEq, Prod.mk.injEq] at h
      obtain ⟨hrecs, hfin⟩ := h
      rw [← hrecs]
      simpa using ih hres
    · simp only [Except.ok.injEq, Prod.mk.injEq] at h
      simp [← h.1]

/-- Every ledger row is tagged with the option of the loop environment. -/
lemma run_loop_tag {env : LoopEnv} :
    ∀ {fuel elapsed : ℕ} {p mrate ev total : ℚ} {recs : List MonthlyRecord} {fin : ℚ},
    run_loop env fuel elapsed p mrate ev total = Except.ok (recs, fin) →
    ∀ r ∈ recs, r.option = env.option := by
  intro fuel
  induction fuel with
  | zero =>
    intro elapsed p mrate ev total recs fin h
    simp only [run_loop, Except.ok.injEq, Prod.mk.injEq] at h
    simp [← h.1]
  | succ fuel ih =>
    intro elapsed p mrate ev total recs fin h
    rw [run_loop] at h
    split_ifs at h
    · obtain ⟨ru, hru, h⟩ := bind_eq_ok.mp h
      obtain ⟨step, hstep, h⟩ := bind_eq_ok.mp h
      obtain ⟨res, hres, h⟩ := bind_eq_ok.mp h
      simp only [Except.ok.injEq, Prod.mk.injEq] at h
      obtain ⟨hrecs, hfin⟩ := h
      rw [← hrecs]
      intro r hr
      rcases List.mem_cons.mp hr with hr | hr
      · rw [hr]; rfl
      · exact ih hres r hr
    · simp only [Except.ok.injEq, Prod.mk.injEq] at h
      simp [← h.1]

/-- Changing the starting total shifts the final total by the same
amount and changes nothing else (the ledger and the error behaviour do
not depend on the accumulated total). -/
lemma run_loop_total_shift {env : LoopEnv} :
    ∀ {fuel elapsed : ℕ} {p mrate ev t : ℚ} {recs : List MonthlyRecord} {fin : ℚ},
    run_loop env fuel elapsed p mrate ev t = Except.ok (recs, fin) →
    ∀ t2 : ℚ, run_loop env fuel elapsed p mrate ev t2 = Except.ok (recs, fin - t + t2) := by
  intro fuel
  induction fuel with
  | zero =>
    intro elapsed p mrate ev t recs fin h t2
    simp only [run_loop, Except.ok.injEq, Prod.mk.injEq] at h ⊢
    exact ⟨h.1, by rw [← h.2]; ring⟩
  | succ fuel ih =>
    intro elapsed p mrate ev t recs fin h t2
    rw [run_loop] at h ⊢
    split_ifs at h ⊢ with hc
    · obtain ⟨ru, hru, h⟩ := bind_eq_ok.mp h
      rw [hru, ok_bind]
      obtain ⟨step, hstep, h⟩ := bind_eq_ok.mp h
      rw [hstep, ok_bind]
      obtain ⟨res, hres, h⟩ := bind_eq_ok.mp h
      obtain ⟨resl, resf⟩ := res
      rw [ih hres (t2 + step.2 + month_fees env elapsed +
        month_insurance env (paydown p ru.1 ru.2)), ok_bind]
      simp only [Except.ok.injEq, Prod.mk.injEq] at h ⊢
      exact ⟨h.1, by rw [← h.2]; ring⟩
    · simp only [Except.ok.injEq, Prod.mk.injEq] at h ⊢
      exact ⟨h.1, by rw [← h.2]; ring⟩

/-- A successful recompute returns a resolved rate together with exactly
the closed-form payment value for it. -/
lemma rpu_recompute_ok {env : LoopEnv} {m elapsed : ℕ} {p : ℚ} {ru : ℚ × ℚ}
    (hrate : ∀ k r, rate_for_month env.option env.current env.newT env.curves k =
      Except.ok r → 0 ≤ r)
    (hn : 1 ≤ env.tenure - (elapsed : ℤ))
    (h : rpu_recompute env m elapsed p = Except.ok ru) :
    0 ≤ ru.1 ∧ ru.2 = emiValue p ru.1 (env.tenure - (elapsed : ℤ)) := by
  unfold rpu_recompute at h
  obtain ⟨mr, hmr, h⟩ := bind_eq_ok.mp h
  have h0 := hrate _ _ hmr
  obtain ⟨ev, hev, h2⟩ := bind_eq_ok.mp h
  rw [emi_eq_ok h0 hn] at hev
  simp only [Except.ok.injEq] at hev h2
  rw [← h2, ← hev]
  exact ⟨h0, rfl⟩

/-- The strong loop invariant survives the recompute decision: the
payment is at least the exact amortized payment for the current balance,
rate and remaining tenure. -/
lemma rpu_invariant {env : LoopEnv} {m elapsed : ℕ} {p mrate ev : ℚ} {ru : ℚ × ℚ}
    (hrate : ∀ k r, rate_for_month env.option env.current env.newT env.curves k =
      Except.ok r → 0 ≤ r)
    (hn : 1 ≤ env.tenure - (elapsed : ℤ))
    (hmr : 0 ≤ mrate)
    (hev : emiValue p mrate (env.tenure - (elapsed : ℤ)) ≤ ev)
    (hru : rate_payment_update env m elapsed p mrate ev = Except.ok ru) :
    0 ≤ ru.1 ∧ emiValue p ru.1 (env.tenure - (elapsed : ℤ)) ≤ ru.2 := by
  unfold rate_payment_update at hru
  split_ifs at hru
  · obtain ⟨h1, h2⟩ := rpu_recompute_ok hrate hn hru
    exact ⟨h1, le_of_eq h2.symm⟩
  · obtain ⟨h1, h2⟩ := rpu_recompute_ok hrate hn hru
    exact ⟨h1, le_of_eq h2.symm⟩
  · simp only [Except.ok.injEq] at hru
    rw [← hru]
    exact ⟨hmr, hev⟩
  · obtain ⟨h1, h2⟩ := rpu_recompute_ok hrate hn hru
    exact ⟨h1, le_of_eq h2.symm⟩

/-- The weak loop invariant: rate and payment stay nonnegative. -/
lemma rpu_nonneg {env : LoopEnv} {m elapsed : ℕ} {p mrate ev : ℚ} {ru : ℚ × ℚ}
    (hrate : ∀ k r, rate_for_month env.option env.current env.newT env.curves k =
      Except.ok r → 0 ≤ r)
    (hn : 1 ≤ env.tenure - (elapsed : ℤ))
    (hp : 0 ≤ p) (hmr : 0 ≤ mrate) (hev : 0 ≤ ev)
    (hru : rate_payment_update env m elapsed p mrate ev = Except.ok ru) :
    0 ≤ ru.1 ∧ 0 ≤ ru.2 := by
  unfold rate_payment_update at hru
  split_ifs at hru
  · obtain ⟨h1, h2⟩ := rpu_recompute_ok hrate hn hru
    exact ⟨h1, h2 ▸ emiValue_nonneg hp h1 hn⟩
  · obtain ⟨h1, h2⟩ := rpu_recompute_ok hrate hn hru
    exact ⟨h1, h2 ▸ emiValue_nonneg hp h1 hn⟩
  · simp only [Except.ok.injEq] at hru
    rw [← hru]
    exact ⟨hmr, hev⟩
  · obtain ⟨h1, h2⟩ := rpu_recompute_ok hrate hn hru
    exact ⟨h1, h2 ▸ emiValue_nonneg hp h1 hn⟩

/-- When no prepayment uses reduce_emi, the prepayment step keeps the
payment unchanged. -/
lemma apply_prepay_no_reduce {l : List Prepayment} {m : ℕ} {mr : ℚ} {months : ℤ}
    {p1 ev : ℚ} {s : ℚ × ℚ}
    (hnored : ∀ pp ∈ l, pp.method ≠ "reduce_emi")
    (h : apply_prepay l m mr months p1 ev = Except.ok s) :
    s.2 = ev := by
  unfold apply_prepay at h
  split at h
  · simp only [Except.ok.injEq] at h
    rw [← h]
  · next pp hfind =>
    rw [if_neg (hnored pp (prepay_find_mem hfind))] at h
    simp only [Except.ok.injEq] at h
    rw [← h]

/-- The payment returned by the prepayment step is nonnegative when the
inputs are. -/
lemma apply_prepay_ev_nonneg {l : List Prepayment} {m : ℕ} {mr : ℚ} {months : ℤ}
    {p1 ev : ℚ} {s : ℚ × ℚ}
    (hmr : 0 ≤ mr) (hmonths : 1 ≤ months) (hp1 : 0 ≤ p1) (hev : 0 ≤ ev)
    (hamt : ∀ pp ∈ l, 0 ≤ pp.amount)
    (h : apply_prepay l m mr months p1 ev = Except.ok s) :
    0 ≤ s.2 := by
  unfold apply_prepay at h
  split at h
  · simp only [Except.ok.injEq] at h
    rw [← h]
    exact hev
  · next pp hfind =>
    have ha := hamt pp (prepay_find_mem hfind)
    split_ifs at h
    · obtain ⟨e2, he2, h2⟩ := bind_eq_ok.mp h
      rw [emi_eq_ok hmr hmonths] at he2
      simp only [Except.ok.injEq] at he2 h2
      rw [← h2]
      show 0 ≤ e2
      rw [← he2]
      exact emiValue_nonneg (sub_nonneg.mpr (min_le_right pp.amount p1)) hmr hmonths
    · simp only [Except.ok.injEq] at h
      rw [← h]
      exact hev

/-- A loop started on a cleared balance produces no ledger rows. -/
lemma run_loop_p_zero {env : LoopEnv} {fuel elapsed : ℕ} {p mrate ev total : ℚ}
    {recs : List MonthlyRecord} {fin : ℚ}
    (h : run_loop env fuel elapsed p mrate ev total = Except.ok (recs, fin))
    (hp : p ≤ 0) : recs = [] := by
  cases fuel with
  | zero =>
    simp only [run_loop, Except.ok.injEq, Prod.mk.injEq] at h
    rw [← h.1]
  | succ fuel =>
    rw [run_loop, if_neg (by intro hc; linarith [hc.1])] at h
    simp only [Except.ok.injEq, Prod.mk.injEq] at h
    rw [← h.1]

/-- Within one run the recorded principal_remaining values are
non-increasing (from the rounded starting balance down) and nonnegative,
as long as prepayment amounts are nonnegative. -/
lemma run_loop_chain {env : LoopEnv}
    (hamt : ∀ pp ∈ env.prepay, 0 ≤ pp.amount) :
    ∀ {fuel elapsed : ℕ} {p mrate ev total : ℚ} {recs : List MonthlyRecord} {fin : ℚ},
    run_loop env fuel elapsed p mrate ev total = Except.ok (recs, fin) →
    0 ≤ p →
    List.Chain (fun a b => b ≤ a) (pyRound2 p)
      (recs.map (fun r => r.principal_remaining)) ∧
    ∀ r ∈ recs, 0 ≤ r.principal_remaining := by
  intro fuel
  induction fuel with
  | zero =>
    intro elapsed p mrate ev total recs fin h hp
    simp only [run_loop, Except.ok.injEq, Prod.mk.injEq] at h
    rw [← h.1]
    exact ⟨List.Chain.nil, by simp⟩
  | succ fuel ih =>
    intro elapsed p mrate ev total recs fin h hp
    rw [run_loop] at h
    split_ifs at h with hc
    · obtain ⟨ru, hru, h⟩ := bind_eq_ok.mp h
      obtain ⟨step, hstep, h⟩ := bind_eq_ok.mp h
      obtain ⟨res, hres, h⟩ := bind_eq_ok.mp h
      simp only [Except.ok.injEq, Prod.mk.injEq] at h
      obtain ⟨hrecs, hfin⟩ := h
      have hpd := paydown_bounds (ru.2 - p * ru.1) hp
      have hap := apply_prepay_bounds hpd.1 hamt hstep
      have hstep_le : step.1 ≤ p := le_trans hap.2 hpd.2
      have ihres := ih hres hap.1
      rw [← hrecs]
      constructor
      · simp only [List.map_cons]
        exact List.Chain.cons (pyRound2_mono hstep_le) ihres.1
      · intro r hr
        rcases List.mem_cons.mp hr with hr | hr
        · rw [hr]
          exact pyRound2_nonneg hap.1
        · exact ihres.2 r hr
    · simp only [Except.ok.injEq, Prod.mk.injEq] at h
      rw [← h.1]
      exact ⟨List.Chain.nil, by simp⟩

lemma month_fees_nonneg {env : LoopEnv} (elapsed : ℕ)
    (hmf : 0 ≤ env.monthly_fee_sum) (haf : 0 ≤ env.annual_fee_sum) :
    0 ≤ month_fees env elapsed := by
  unfold month_fees
  split_ifs <;> linarith

/-- Under nonnegative rates, fees, insurance values and prepayments the
accumulated cash total never decreases below its starting value 0. -/
lemma run_loop_total_nonneg {env : LoopEnv}
    (hrate : ∀ k r, rate_for_month env.option env.current env.newT env.curves k =
      Except.ok r → 0 ≤ r)
    (hamt : ∀ pp ∈ env.prepay, 0 ≤ pp.amount)
    (hmf : 0 ≤ env.monthly_fee_sum) (haf : 0 ≤ env.annual_fee_sum)
    (hiv : 0 ≤ env.terms.life_insurance_value) :
    ∀ {fuel elapsed : ℕ} {p mrate ev total : ℚ} {recs : List MonthlyRecord} {fin : ℚ},
    run_loop env fuel elapsed p mrate ev total = Except.ok (recs, fin) →
    0 ≤ p → 0 ≤ mrate → 0 ≤ ev → 0 ≤ total → 0 ≤ fin := by
  intro fuel
  induction fuel with
  | zero =>
    intro elapsed p mrate ev total recs fin h hp hmr hev htot
    simp only [run_loop, Except.ok.injEq, Prod.mk.injEq] at h
    rw [← h.2]
    exact htot
  | succ fuel ih =>
    intro elapsed p mrate ev total recs fin h hp hmr hev htot
    rw [run_loop] at h
    split_ifs at h with hc
    · obtain ⟨ru, hru, h⟩ := bind_eq_ok.mp h
      obtain ⟨step, hstep, h⟩ := bind_eq_ok.mp h
      obtain ⟨res, hres, h⟩ := bind_eq_ok.mp h
      simp only [Except.ok.injEq, Prod.mk.injEq] at h
      have hn : 1 ≤ env.tenure - (elapsed : ℤ) := by omega
      have hrp := rpu_nonneg hrate hn hp hmr hev hru
      have hpd := paydown_bounds (ru.2 - p * ru.1) hp
      have hap := apply_prepay_bounds hpd.1 hamt hstep
      have hev2 := apply_prepay_ev_nonneg hrp.1 hn hpd.1 hrp.2 hamt hstep
      have hfees := month_fees_nonneg elapsed hmf haf
      have hins : 0 ≤ month_insurance env (paydown p ru.1 ru.2) :=
        insurance_cost_nonneg hiv hpd.1
      have := ih hres hap.1 hrp.1 hev2 (by linarith)
      rw [← h.2]
      exact this
    · simp only [Except.ok.injEq, Prod.mk.injEq] at h
      rw [← h.2]
      exact htot

/-- The central liveness and correctness fact for the amortization: if
the fuel covers the remaining tenure, every resolved rate is nonnegative,
prepayment amounts are nonnegative and none uses reduce_emi, then the
ledger ends with a row whose principal_remaining is exactly 0 at a month
at or before the tenure. -/
lemma run_loop_reach_zero {env : LoopEnv}
    (hrate : ∀ k r, rate_for_month env.option env.current env.newT env.curves k =
      Except.ok r → 0 ≤ r)
    (hamt : ∀ pp ∈ env.prepay, 0 ≤ pp.amount)
    (hnored : ∀ pp ∈ env.prepay, pp.method ≠ "reduce_emi") :
    ∀ {fuel elapsed : ℕ} {p mrate ev total : ℚ} {recs : List MonthlyRecord} {fin : ℚ},
    run_loop env fuel elapsed p mrate ev total = Except.ok (recs, fin) →
    env.tenure ≤ (elapsed : ℤ) + fuel →
    0 < p → (elapsed : ℤ) < env.tenure →
    0 ≤ mrate → emiValue p mrate (env.tenure - (elapsed : ℤ)) ≤ ev →
    ∃ last, recs.getLast? = some last ∧ last.principal_remaining = 0 ∧
      (last.month : ℤ) ≤ env.tenure := by
  intro fuel
  induction fuel with
  | zero =>
    intro elapsed p mrate ev total recs fin h hfuel hp hlt hmr hev
    exfalso
    omega
  | succ fuel ih =>
    intro elapsed p mrate ev total recs fin h hfuel hp hlt hmr hev
    rw [run_loop, if_pos ⟨hp, hlt⟩] at h
    obtain ⟨ru, hru, h⟩ := bind_eq_ok.mp h
    obtain ⟨step, hstep, h⟩ := bind_eq_ok.mp h
    obtain ⟨res, hres, h⟩ := bind_eq_ok.mp h
    simp only [Except.ok.injEq, Prod.mk.injEq] at h
    obtain ⟨hrecs, hfin⟩ := h
    have hn : 1 ≤ env.tenure - (elapsed : ℤ) := by omega
    have hinv := rpu_invariant hrate hn hmr hev hru
    have hpd := paydown_bounds (ru.2 - p * ru.1) hp.le
    have hap := apply_prepay_bounds hpd.1 hamt hstep
    have hsev := apply_prepay_no_reduce hnored hstep
    by_cases hlast_month : env.tenure - (elapsed : ℤ) = 1
    · have hp1 : paydown p ru.1 ru.2 = 0 := by
        have h2 := hinv.2
        rw [hlast_month] at h2
        exact payment_last hp.le hinv.1 h2
      have hstep0 : step.1 = 0 :=
        le_antisymm (by rw [← hp1]; exact hap.2) hap.1
      have hres_nil : res.1 = [] := run_loop_p_zero hres (le_of_eq hstep0)
      refine ⟨month_entry env elapsed p ru step, ?_, ?_, ?_⟩
      · rw [← hrecs, hres_nil]
        simp
      · show pyRound2 step.1 = 0
        rw [hstep0, pyRound2_zero]
      · show ((elapsed + 1 : ℕ) : ℤ) ≤ env.tenure
        push_cast
        omega
    · have hn2 : 2 ≤ env.tenure - (elapsed : ℤ) := by omega
      have hps := payment_step hp.le hinv.1 hn2 hinv.2
      rcases eq_or_lt_of_le hap.1 with hz | hpos2
      · have hres_nil : res.1 = [] := run_loop_p_zero hres (le_of_eq hz.symm)
        refine ⟨month_entry env elapsed p ru step, ?_, ?_, ?_⟩
        · rw [← hrecs, hres_nil]
          simp
        · show pyRound2 step.1 = 0
          rw [← hz, pyRound2_zero]
        · show ((elapsed + 1 : ℕ) : ℤ) ≤ env.tenure
          push_cast
          omega
      · have hinv2 : emiValue step.1 ru.1 (env.tenure - ((elapsed + 1 : ℕ) : ℤ)) ≤ step.2 := by
          rw [hsev]
          have hcast : env.tenure - ((elapsed + 1 : ℕ) : ℤ) = env.tenure - (elapsed : ℤ) - 1 := by
            push_cast
            ring
          rw [hcast]
          calc emiValue step.1 ru.1 (env.tenure - (elapsed : ℤ) - 1)
              ≤ emiValue (paydown p ru.1 ru.2) ru.1 (env.tenure - (elapsed : ℤ) - 1) :=
                emiValue_mono_p hap.2 hinv.1 (by omega)
            _ ≤ ru.2 := hps
        obtain ⟨last, hl1, hl2, hl3⟩ := ih hres (by push_cast; omega) hpos2
          (by push_cast; omega) hinv.1 hinv2
        refine ⟨last, ?_, hl2, hl3⟩
        rw [← hrecs]
        exact Option.mem_def.mp (List.mem_getLast?_cons (Option.mem_def.mpr hl1))

/-! Inversion of run_option and compare, and the break-even
characterization. -/

/-- Inversion of a successful run_option. -/
lemma run_option_ok {principal : ℚ} {tenure horizon : ℤ} {prepayments : List Prepayment}
    {option : String} {current newT : Terms} {curves : List (String × List ℚ)}
    {policy : String} {auto : Bool} {r : RunResult}
    (h : run_option principal tenure horizon prepayments option current newT curves
      policy auto = Except.ok r) :
    ∃ mrate emi_val loop_res,
      rate_for_month option current newT curves 1 = Except.ok mrate ∧
      emi principal mrate tenure = Except.ok emi_val ∧
      run_loop (run_env principal tenure prepayments option current newT curves policy auto)
        horizon.toNat 0 principal mrate emi_val
        (fee_sum (option_fees principal option current newT auto) "upfront") =
        Except.ok loop_res ∧
      r = { cashflows := loop_res.1, total_cash := pyRound2 loop_res.2,
            applied_upfront_fees :=
              pyRound2 (fee_sum (option_fees principal option current newT auto) "upfront"),
            fees_list := option_fees principal option current newT auto } := by
  unfold run_option at h
  obtain ⟨mrate, h1, h⟩ := bind_eq_ok.mp h
  obtain ⟨emi_val, h2, h⟩ := bind_eq_ok.mp h
  obtain ⟨loop_res, h3, h⟩ := bind_eq_ok.mp h
  simp only [Except.ok.injEq] at h
  exact ⟨mrate, emi_val, loop_res, h1, h2, h3, h.symm⟩

/-- Inversion of a successful compare. -/
lemma compare_ok {input : CompareInput} {res : CompareResult}
    (h : compare input = Except.ok res) :
    ∃ c1 c3 stay switch,
      dict_get input.rate_scenarios_base "EIBOR_1M" = some c1 ∧
      dict_get input.rate_scenarios_base "EIBOR_3M" = some c3 ∧
      run_option input.principal_aed input.tenure_months input.horizon_months
        input.prepayment_plan "stay" (build_current_terms input.current_terms)
        (build_new_terms input.current_terms input.new_offer)
        [("EIBOR_1M", c1), ("EIBOR_3M", c3)]
        (input.recompute_policy.getD "on_reset_only")
        (input.auto_estimate_buyout_fees.getD true) = Except.ok stay ∧
      run_option input.principal_aed input.tenure_months input.horizon_months
        input.prepayment_plan "switch" (build_current_terms input.current_terms)
        (build_new_terms input.current_terms input.new_offer)
        [("EIBOR_1M", c1), ("EIBOR_3M", c3)]
        (input.recompute_policy.getD "on_reset_only")
        (input.auto_estimate_buyout_fees.getD true) = Except.ok switch ∧
      res = assemble stay switch := by
  unfold compare at h
  obtain ⟨c1, h1, h⟩ := bind_eq_ok.mp h
  obtain ⟨c3, h2, h⟩ := bind_eq_ok.mp h
  obtain ⟨stay, h3, h⟩ := bind_eq_ok.mp h
  obtain ⟨switch, h4, h⟩ := bind_eq_ok.mp h
  simp only [Except.ok.injEq] at h
  exact ⟨c1, c3, stay, switch, expectSome_eq_ok.mp h1, expectSome_eq_ok.mp h2, h3, h4, h.symm⟩

lemma zip_cum_fst_zero (z : List (MonthlyRecord × MonthlyRecord)) :
    zip_cum_fst z 0 = 0 := by simp [zip_cum_fst]

lemma zip_cum_snd_zero (z : List (MonthlyRecord × MonthlyRecord)) :
    zip_cum_snd z 0 = 0 := by simp [zip_cum_snd]

lemma zip_cum_fst_succ (s w : MonthlyRecord) (tl : List (MonthlyRecord × MonthlyRecord))
    (i : ℕ) : zip_cum_fst ((s, w) :: tl) (i + 1) = month_cost s + zip_cum_fst tl i := by
  simp [zip_cum_fst, List.take_succ_cons]

lemma zip_cum_snd_succ (s w : MonthlyRecord) (tl : List (MonthlyRecord × MonthlyRecord))
    (i : ℕ) : zip_cum_snd ((s, w) :: tl) (i + 1) = month_cost w + zip_cum_snd tl i := by
  simp [zip_cum_snd, List.take_succ_cons]

/-- Once the break-even register holds a month it never changes. -/
lemma be_fold_some :
    ∀ (z : List (MonthlyRecord × MonthlyRecord)) (idx : ℕ) (cs cw : ℚ) (j : ℕ),
    be_fold z idx cs cw (some j) = some j := by
  intro z
  induction z with
  | nil => intro idx cs cw j; rfl
  | cons hd tl ih =>
    obtain ⟨s, w⟩ := hd
    intro idx cs cw j
    simp only [be_fold]
    rw [if_neg (by simp)]
    exact ih (idx + 1) _ _ j

/-- Full characterization of the break-even fold started in the empty
register: it returns none exactly when the stay cumulative cost stays
strictly below the switch cumulative cost at every walked month, and it
returns a month exactly at the first crossing. -/
lemma be_fold_char :
    ∀ (z : List (MonthlyRecord × MonthlyRecord)) (idx : ℕ) (cs cw : ℚ),
    (be_fold z idx cs cw none = none ↔
      ∀ i, i < z.length → cs + zip_cum_fst z (i + 1) < cw + zip_cum_snd z (i + 1)) ∧
    (∀ k, be_fold z idx cs cw none = some k →
      ∃ i, i < z.length ∧ k = idx + i + 1 ∧
        cw + zip_cum_snd z (i + 1) ≤ cs + zip_cum_fst z (i + 1) ∧
        ∀ j, j < i → cs + zip_cum_fst z (j + 1) < cw + zip_cum_snd z (j + 1)) := by
  intro z
  induction z with
  | nil =>
    intro idx cs cw
    constructor
    · simp [be_fold]
    · intro k hk
      simp only [be_fold] at hk
      cases hk
  | cons hd tl ih =>
    obtain ⟨s, w⟩ := hd
    intro idx cs cw
    have hms : month_cost s = s.emi + s.fees + s.insurance := rfl
    have hmw : month_cost w = w.emi + w.fees + w.insurance := rfl
    by_cases hcross : cw + w.emi + w.fees + w.insurance ≤ cs + s.emi + s.fees + s.insurance
    · have hfold : be_fold ((s, w) :: tl) idx cs cw none = some (idx + 1) := by
        simp only [be_fold]
        rw [if_pos ⟨trivial, hcross⟩]
        exact be_fold_some tl (idx + 1) _ _ (idx + 1)
      constructor
      · rw [hfold]
        constructor
        · intro hco
          cases hco
        · intro hall
          exfalso
          have h0 := hall 0 (by simp)
          rw [zip_cum_fst_succ, zip_cum_snd_succ, zip_cum_fst_zero, zip_cum_snd_zero] at h0
          linarith
      · intro k hk
        rw [hfold] at hk
        have hkk : idx + 1 = k := by
          simpa using hk
        refine ⟨0, by simp, by omega, ?_, by omega⟩
        rw [zip_cum_fst_succ, zip_cum_snd_succ, zip_cum_fst_zero, zip_cum_snd_zero]
        linarith
    · have hfold : be_fold ((s, w) :: tl) idx cs cw none =
          be_fold tl (idx + 1) (cs + s.emi + s.fees + s.insurance)
            (cw + w.emi + w.fees + w.insurance) none := by
        simp only [be_fold]
        rw [if_neg (by intro hc; exact hcross hc.2)]
      obtain ⟨ihnone, ihsome⟩ := ih (idx + 1) (cs + s.emi + s.fees + s.insurance)
        (cw + w.emi + w.fees + w.insurance)
      constructor
      · rw [hfold, ihnone]
        constructor
        · intro hall i hi
          cases i with
          | zero =>
            rw [zip_cum_fst_succ, zip_cum_snd_succ, zip_cum_fst_zero, zip_cum_snd_zero]
            have := not_le.mp hcross
            linarith
          | succ i2 =>
            have hlen : i2 < tl.length := by simpa using hi
            have := hall i2 hlen
            rw [zip_cum_fst_succ, zip_cum_snd_succ]
            linarith
        · intro hall i hi
          have := hall (i + 1) (by simpa using Nat.succ_lt_succ hi)
          rw [zip_cum_fst_succ, zip_cum_snd_succ] at this
          linarith
      · intro k hk
        rw [hfold] at hk
        obtain ⟨i, hilen, hik, hicross, hiprev⟩ := ihsome k hk
        refine ⟨i + 1, by simpa using Nat.succ_lt_succ hilen, by omega, ?_, ?_⟩
        · rw [zip_cum_fst_succ, zip_cum_snd_succ]
          linarith
        · intro j hj
          cases j with
          | zero =>
            rw [zip_cum_fst_succ, zip_cum_snd_succ, zip_cum_fst_zero, zip_cum_snd_zero]
            have := not_le.mp hcross
            linarith
          | succ j2 =>
            have := hiprev j2 (by omega)
            rw [zip_cum_fst_succ, zip_cum_snd_succ]
            linarith

lemma zip_cum_fst_eq {s w : List MonthlyRecord} {m : ℕ}
    (hm : m ≤ min s.length w.length) :
    zip_cum_fst (s.zip w) m = cum_cost s m := by
  unfold zip_cum_fst cum_cost
  rw [List.zip_eq_zipWith, List.take_zipWith, ← List.zip_eq_zipWith]
  have hlen : (s.take m).length ≤ (w.take m).length := by
    rw [List.length_take, List.length_take]
    omega
  have hmap : (((s.take m).zip (w.take m)).map fun q => month_cost q.1) =
      (((s.take m).zip (w.take m)).map Prod.fst).map month_cost := by
    rw [List.map_map]
    rfl
  rw [hmap, List.map_fst_zip _ _ hlen]

lemma zip_cum_snd_eq {s w : List MonthlyRecord} {m : ℕ}
    (hm : m ≤ min s.length w.length) :
    zip_cum_snd (s.zip w) m = cum_cost w m := by
  unfold zip_cum_snd cum_cost
  rw [List.zip_eq_zipWith, List.take_zipWith, ← List.zip_eq_zipWith]
  have hlen : (w.take m).length ≤ (s.take m).length := by
    rw [List.length_take, List.length_take]
    omega
  have hmap : (((s.take m).zip (w.take m)).map fun q => month_cost q.2) =
      (((s.take m).zip (w.take m)).map Prod.snd).map month_cost := by
    rw [List.map_map]
    rfl
  rw [hmap, List.map_snd_zip _ _ hlen]

/-- Characterization of break_even_of over the two ledgers. -/
lemma break_even_char (stay_cf switch_cf : List MonthlyRecord) :
    (break_even_of stay_cf switch_cf = none ↔
      ∀ m, 1 ≤ m → m ≤ min stay_cf.length switch_cf.length →
        cum_cost stay_cf m < cum_cost switch_cf m) ∧
    (∀ k, break_even_of stay_cf switch_cf = some k →
      1 ≤ k ∧ k ≤ min stay_cf.length switch_cf.length ∧
      cum_cost switch_cf k ≤ cum_cost stay_cf k ∧
      ∀ j, 1 ≤ j → j < k → cum_cost stay_cf j < cum_cost switch_cf j) := by
  obtain ⟨hnone, hsome⟩ := be_fold_char (stay_cf.zip switch_cf) 0 0 0
  have hlen : (stay_cf.zip switch_cf).length = min stay_cf.length switch_cf.length :=
    List.length_zip stay_cf switch_cf
  constructor
  · unfold break_even_of
    rw [hnone]
    constructor
    · intro hall m hm1 hm2
      have := hall (m - 1) (by omega)
      rw [show m - 1 + 1 = m by omega] at this
      rw [zip_cum_fst_eq (by omega), zip_cum_snd_eq (by omega)] at this
      linarith
    · intro hall i hi
      have hi2 : i + 1 ≤ min stay_cf.length switch_cf.length := by omega
      have := hall (i + 1) (by omega) hi2
      rw [zip_cum_fst_eq hi2, zip_cum_snd_eq hi2]
      linarith
  · intro k hk
    obtain ⟨i, hilen, hik, hicross, hiprev⟩ := hsome k hk
    have hi2 : i + 1 ≤ min stay_cf.length switch_cf.length := by omega
    rw [zip_cum_fst_eq hi2, zip_cum_snd_eq hi2] at hicross
    refine ⟨by omega, by omega, ?_, ?_⟩
    · rw [show k = i + 1 by omega]
      linarith
    · intro j hj1 hjk
      have hjlen : j ≤ min stay_cf.length switch_cf.length := by omega
      have := hiprev (j - 1) (by omega)
      rw [show j - 1 + 1 = j by omega] at this
      rw [zip_cum_fst_eq hjlen, zip_cum_snd_eq hjlen] at this
      linarith

/-! Flat-curve extrapolation: a singleton curve and a constant curve of
any positive length resolve to the same value at every month. -/

lemma monthly_index_single (r : ℚ) (m : ℕ) : monthly_index [r] m = Except.ok r := by
  unfold monthly_index
  split_ifs with h
  · have hm : m - 1 = 0 := by
      have := h
      simp only [List.length_singleton] at this
      omega
    simp [hm]
  · rfl

lemma getLast?_replicate (r : ℚ) : ∀ n : ℕ, n ≠ 0 → (List.replicate n r).getLast? = some r := by
  intro n
  induction n with
  | zero => intro h; exact absurd rfl h
  | succ k ih =>
    intro _
    cases hk : k with
    | zero => rfl
    | succ j =>
      have h2 := ih (by omega)
      rw [hk] at h2
      rw [List.replicate_succ, List.replicate_succ, List.getLast?_cons_cons,
        ← List.replicate_succ]
      exact h2

lemma monthly_index_replicate (r : ℚ) {n : ℕ} (hn : n ≠ 0) (m : ℕ) :
    monthly_index (List.replicate n r) m = Except.ok r := by
  unfold monthly_index
  split_ifs with h
  · simp
  · rw [getLast?_replicate r n hn]

/-- Replacing the series stored under one key of the curves dict. -/
lemma dict_get_curve_update_self {l : List (String × List ℚ)} {k : String}
    {w v : List ℚ} (hk : dict_get l k = some w) :
    dict_get (curve_update l k v) k = some v := by
  induction l with
  | nil => cases hk
  | cons hd tl ih =>
    obtain ⟨k1, w1⟩ := hd
    by_cases hke : k1 = k
    · subst hke
      rw [show curve_update ((k1, w1) :: tl) k1 v = (k1, v) :: curve_update tl k1 v by
        simp [curve_update]]
      simp [dict_get]
    · rw [show dict_get ((k1, w1) :: tl) k = dict_get tl k by
        simp [dict_get, hke]] at hk
      rw [show curve_update ((k1, w1) :: tl) k v = (k1, w1) :: curve_update tl k v by
        simp [curve_update, hke]]
      rw [show dict_get ((k1, w1) :: curve_update tl k v) k = dict_get (curve_update tl k v) k by
        simp [dict_get, hke]]
      exact ih hk

lemma dict_get_curve_update_other {l : List (String × List ℚ)} {k k2 : String}
    {v : List ℚ} (hne : ¬ k2 = k) :
    dict_get (curve_update l k v) k2 = dict_get l k2 := by
  induction l with
  | nil => rfl
  | cons hd tl ih =>
    obtain ⟨k1, w1⟩ := hd
    by_cases hke : k1 = k
    · subst hke
      have hne2 : ¬ k1 = k2 := fun hc => hne hc.symm
      rw [show curve_update ((k1, w1) :: tl) k1 v = (k1, v) :: curve_update tl k1 v by
        simp [curve_update]]
      rw [show dict_get ((k1, v) :: curve_update tl k1 v) k2 = dict_get (curve_update tl k1 v) k2 by
        simp [dict_get, hne2]]
      rw [show dict_get ((k1, w1) :: tl) k2 = dict_get tl k2 by simp [dict_get, hne2]]
      exact ih
    · rw [show curve_update ((k1, w1) :: tl) k v = (k1, w1) :: curve_update tl k v by
        simp [curve_update, hke]]
      by_cases hk12 : k1 = k2
      · subst hk12
        rw [show dict_get ((k1, w1) :: curve_update tl k v) k1 = some w1 by simp [dict_get]]
        rw [show dict_get ((k1, w1) :: tl) k1 = some w1 by simp [dict_get]]
      · rw [show dict_get ((k1, w1) :: curve_update tl k v) k2 = dict_get (curve_update tl k v) k2 by
          simp [dict_get, hk12]]
        rw [show dict_get ((k1, w1) :: tl) k2 = dict_get tl k2 by simp [dict_get, hk12]]
        exact ih

/-- Resolved rates agree, month by month, between a dict holding a
singleton curve under some key and the same dict with that curve replaced
by a constant curve of positive length. -/
lemma rate_for_month_update {optionS : String} {current newT : Terms}
    {curves : List (String × List ℚ)} {k : String} {r : ℚ} {n : ℕ}
    (hk : dict_get curves k = some [r]) (hn : n ≠ 0) :
    ∀ m, rate_for_month optionS current newT curves m =
      rate_for_month optionS current newT (curve_update curves k (List.replicate n r)) m := by
  intro m
  unfold rate_for_month
  split_ifs with h1 h2
  · by_cases hksame : current.index_type = k
    · rw [hksame, hk, dict_get_curve_update_self hk]
      simp [expectSome, ok_bind, monthly_index_single, monthly_index_replicate r hn]
    · rw [dict_get_curve_update_other hksame]
  · rfl
  · by_cases hksame : optStrOr newT.reversion_index_type "EIBOR_3M" = k
    · rw [hksame, hk, dict_get_curve_update_self hk]
      simp [expectSome, ok_bind, monthly_index_single, monthly_index_replicate r hn]
    · rw [dict_get_curve_update_other hksame]

/-- The loop result depends on the curves dict only through the resolved
rates. -/
lemma run_loop_congr (tenure : ℤ) (optionS : String) (current newT terms : Terms)
    (policy : String) (prepay : List Prepayment) (mfs afs : ℚ)
    {c1 c2 : List (String × List ℚ)}
    (h : ∀ m, rate_for_month optionS current newT c1 m =
      rate_for_month optionS current newT c2 m) :
    ∀ (fuel elapsed : ℕ) (p mrate ev total : ℚ),
    run_loop ⟨tenure, optionS, current, newT, terms, c1, policy, prepay, mfs, afs⟩
      fuel elapsed p mrate ev total =
    run_loop ⟨tenure, optionS, current, newT, terms, c2, policy, prepay, mfs, afs⟩
      fuel elapsed p mrate ev total := by
  intro fuel
  induction fuel with
  | zero => intro elapsed p mrate ev total; rfl
  | succ fuel ih =>
    intro elapsed p mrate ev total
    have hrpu : ∀ (m elapsed2 : ℕ) (p2 mr2 ev2 : ℚ),
        rate_payment_update ⟨tenure, optionS, current, newT, terms, c1, policy, prepay, mfs, afs⟩
          m elapsed2 p2 mr2 ev2 =
        rate_payment_update ⟨tenure, optionS, current, newT, terms, c2, policy, prepay, mfs, afs⟩
          m elapsed2 p2 mr2 ev2 := by
      intro m elapsed2 p2 mr2 ev2
      unfold rate_payment_update rpu_recompute reset_freq
      rw [h m]
    simp only [run_loop, month_fees, month_insurance, month_entry]
    simp only [hrpu, ih]

/-- run_option depends on the curves dict only through the resolved
rates. -/
lemma run_option_curves_congr {principal : ℚ} {tenure horizon : ℤ}
    {prepayments : List Prepayment} {optionS : String} {current newT : Terms}
    {policy : String} {auto : Bool} {c1 c2 : List (String × List ℚ)}
    (h : ∀ m, rate_for_month optionS current newT c1 m =
      rate_for_month optionS current newT c2 m) :
    run_option principal tenure horizon prepayments optionS current newT c1 policy auto =
    run_option principal tenure horizon prepayments optionS current newT c2 policy auto := by
  unfold run_option run_env
  rw [h 1]
  simp only [run_loop_congr tenure optionS current newT
    (option_terms optionS current newT) policy prepayments _ _ h]

/-- Sufficient input-level conditions for every resolved monthly rate to
be nonnegative: nonnegative floors, margins and fixed rate.  The index
curve values themselves may be arbitrary because the floor clamp bounds
them from below. -/
lemma rate_for_month_nonneg {optionS : String} {current newT : Terms}
    {curves : List (String × List ℚ)} {m : ℕ} {r : ℚ}
    (hfloor : 0 ≤ current.floor_rate_annual) (hmargin : 0 ≤ current.margin_bps)
    (hfloor2 : 0 ≤ newT.floor_rate_annual)
    (hmargin2 : 0 ≤ newT.reversion_margin_bps.getD 0)
    (hfixed : 0 ≤ newT.fixed_rate_annual.getD 0)
    (h : rate_for_month optionS current newT curves m = Except.ok r) : 0 ≤ r := by
  unfold rate_for_month at h
  split_ifs at h
  · obtain ⟨curve, hcurve, h⟩ := bind_eq_ok.mp h
    obtain ⟨iv, hiv, h⟩ := bind_eq_ok.mp h
    simp only [Except.ok.injEq] at h
    rw [← h]
    have hclamp : current.floor_rate_annual ≤ clamp iv current.floor_rate_annual :=
      le_max_right iv current.floor_rate_annual
    have h2 : (0 : ℚ) ≤ current.margin_bps / 10000 := by positivity
    apply div_nonneg (by linarith) (by norm_num)
  · simp only [Except.ok.injEq] at h
    rw [← h]
    exact div_nonneg hfixed (by norm_num)
  · obtain ⟨curve, hcurve, h⟩ := bind_eq_ok.mp h
    obtain ⟨iv, hiv, h⟩ := bind_eq_ok.mp h
    simp only [Except.ok.injEq] at h
    rw [← h]
    have hclamp : newT.floor_rate_annual ≤ clamp iv newT.floor_rate_annual :=
      le_max_right iv newT.floor_rate_annual
    have h2 : (0 : ℚ) ≤ newT.reversion_margin_bps.getD 0 / 10000 := by positivity
    apply div_nonneg (by linarith) (by norm_num)

/-- Fee sums over lists of nonnegative amounts are nonnegative. -/
lemma fee_sum_nonneg {l : List Fee} {t : String}
    (h : ∀ f ∈ l, 0 ≤ f.amount_aed) : 0 ≤ fee_sum l t := by
  unfold fee_sum
  apply List.sum_nonneg
  intro x hx
  obtain ⟨f, hf, hfx⟩ := List.mem_map.mp hx
  rw [← hfx]
  exact h f (List.mem_of_mem_filter hf)

/-- Decomposition of membership in the assembled fee list. -/
lemma mem_assemble_fees {principal : ℚ} {optionS : String} {current terms : Terms}
    {auto : Bool} {f : Fee}
    (hf : f ∈ assemble_fees principal optionS current terms auto) :
    f ∈ terms.fees ∨
    f ∈ estimate_buyout_fees_if_missing principal terms.fees ∨
    f ∈ estimate_release_and_liability_if_missing current.fees ∨
    (0 < current.es_percent ∧
      ((0 < current.es_cap_aed ∧
        f = { ftype := "early_settlement_penalty_old_bank",
              amount_aed := min (principal * current.es_percent) current.es_cap_aed,
              timing := "upfront" }) ∨
       f = { ftype := "early_settlement_penalty_old_bank",
             amount_aed := principal * current.es_percent, timing := "upfront" })) := by
  unfold assemble_fees at hf
  split_ifs at hf <;>
    simp only [List.mem_append, List.mem_singleton] at hf <;>
    tauto

/-- All amounts in the assembled fee list are nonnegative when the
provided fee amounts and the principal are. -/
lemma option_fees_amounts_nonneg {principal : ℚ} {optionS : String}
    {current newT : Terms} {auto : Bool} (hp : 0 ≤ principal)
    (hterms : ∀ f ∈ (option_terms optionS current newT).fees, 0 ≤ f.amount_aed)
    (hcur : ∀ f ∈ current.fees, 0 ≤ f.amount_aed) :
    ∀ f ∈ option_fees principal optionS current newT auto, 0 ≤ f.amount_aed := by
  intro f hf
  have hbuy : ∀ g ∈ estimate_buyout_fees_if_missing principal
      (option_terms optionS current newT).fees, 0 ≤ g.amount_aed := by
    intro g hg
    unfold estimate_buyout_fees_if_missing at hg
    simp only [List.mem_append] at hg
    rcases hg with ((((hg | hg) | hg) | hg) | hg) <;> split_ifs at hg <;>
      simp only [List.mem_singleton, List.not_mem_nil] at hg <;> subst hg <;> dsimp only <;>
      first
        | exact le_min (by positivity) (by norm_num)
        | positivity
  have hrel : ∀ g ∈ estimate_release_and_liability_if_missing current.fees,
      0 ≤ g.amount_aed := by
    intro g hg
    unfold estimate_release_and_liability_if_missing at hg
    simp only [List.mem_append] at hg
    rcases hg with (hg | hg) <;> split_ifs at hg <;>
      simp only [List.mem_singleton, List.not_mem_nil] at hg <;> subst hg <;> dsimp only <;>
      norm_num
  rcases mem_assemble_fees hf with hf | hf | hf | ⟨hes, ⟨hcap, hf⟩ | hf⟩
  · exact hterms f hf
  · exact hbuy f hf
  · exact hrel f hf
  · subst hf
    dsimp only
    exact le_min (mul_nonneg hp hes.le) hcap.le
  · subst hf
    dsimp only
    exact mul_nonneg hp hes.le

/-! Fee synthesis characterization (spec side): the five standard buyout
fees, the two letter fees, and counting lemmas saying a standard fee is
appended exactly when its type is missing from the checked list. -/

lemma count_es_singleton {f : Fee} (hne : f.ftype ≠ "early_settlement_penalty_old_bank")
    (a : ℚ) :
    List.count f
      [{ ftype := "early_settlement_penalty_old_bank", amount_aed := a,
         timing := "upfront" }] = 0 := by
  simp only [List.count_cons, List.count_nil, beq_iff_eq]
  rw [if_neg (fun hEq => hne (congrArg Fee.ftype hEq.symm))]

/-- Counting a non-early-settlement fee in the assembled list. -/
lemma count_assemble {principal : ℚ} {optionS : String} {current terms : Terms}
    {auto : Bool} {f : Fee}
    (hne : f.ftype ≠ "early_settlement_penalty_old_bank") :
    List.count f (assemble_fees principal optionS current terms auto) =
    List.count f terms.fees +
      (if optionS = "switch" ∧ auto = true then
        List.count f (estimate_buyout_fees_if_missing principal terms.fees) +
        List.count f (estimate_release_and_liability_if_missing current.fees)
      else 0) := by
  unfold assemble_fees
  split_ifs with h1 h2 h2 <;>
    simp [List.count_append, count_es_singleton hne]

lemma count_estimate_buyout (principal : ℚ) (provided : List Fee) :
    ∀ f ∈ std_buyout_fees principal,
    List.count f (estimate_buyout_fees_if_missing principal provided) =
      (if f.ftype ∈ provided.map (fun g => g.ftype) then 0 else 1) := by
  intro f hf
  simp only [std_buyout_fees, List.mem_cons, List.not_mem_nil, or_false] at hf
  unfold estimate_buyout_fees_if_missing
  rcases hf with rfl | rfl | rfl | rfl | rfl <;>
    simp [List.count_append, List.count_cons, apply_ite (List.count _),
      beq_iff_eq, Fee.mk.injEq]

lemma count_estimate_release (provided : List Fee) :
    ∀ f ∈ std_letter_fees,
    List.count f (estimate_release_and_liability_if_missing provided) =
      (if f.ftype ∈ provided.map (fun g => g.ftype) then 0 else 1) := by
  intro f hf
  simp only [std_letter_fees, List.mem_cons, List.not_mem_nil, or_false] at hf
  unfold estimate_release_and_liability_if_missing
  rcases hf with rfl | rfl <;>
    simp [List.count_append, List.count_cons, apply_ite (List.count _),
      beq_iff_eq, Fee.mk.injEq]

lemma count_estimate_release_of_buyout (principal : ℚ) (provided : List Fee) :
    ∀ f ∈ std_buyout_fees principal,
    List.count f (estimate_release_and_liability_if_missing provided) = 0 := by
  intro f hf
  simp only [std_buyout_fees, List.mem_cons, List.not_mem_nil, or_false] at hf
  unfold estimate_release_and_liability_if_missing
  rcases hf with rfl | rfl | rfl | rfl | rfl <;>
    simp [List.count_append, List.count_cons, apply_ite (List.count _),
      beq_iff_eq, Fee.mk.injEq]

lemma count_estimate_buyout_of_letter (principal : ℚ) (provided : List Fee) :
    ∀ f ∈ std_letter_fees,
    List.count f (estimate_buyout_fees_if_missing principal provided) = 0 := by
  intro f hf
  simp only [std_letter_fees, List.mem_cons, List.not_mem_nil, or_false] at hf
  unfold estimate_buyout_fees_if_missing
  rcases hf with rfl | rfl <;>
    simp [List.count_append, List.count_cons, apply_ite (List.count _),
      beq_iff_eq, Fee.mk.injEq]

lemma option_terms_switch (current newT : Terms) :
    option_terms "switch" current newT = newT := by
  unfold option_terms
  rw [if_neg (by decide)]

/-! Claim theorems. -/

lemma error_bind {α β : Type} (e : String) (f : α → Except String β) :
    (Except.error e : Except String α) >>= f = Except.error e := rfl

/-- Claim C6: under recompute_policy on_reset_only the simulator
recomputes the annual rate and the closed-form payment exactly at month 1
and at the months m with (m - 1) mod reset_freq_months = 0 and reuses the
previous rate and payment at every other month; under any other policy it
recomputes every month. -/
theorem mortgage_c6 (env : LoopEnv) (m elapsed : ℕ) (p mrate emi_val : ℚ)
    (hfreq : 1 ≤ reset_freq env) :
    (env.policy = "on_reset_only" →
      ((((m : ℤ) - 1) % reset_freq env = 0 →
        rate_payment_update env m elapsed p mrate emi_val = rpu_recompute env m elapsed p) ∧
       (¬ ((m : ℤ) - 1) % reset_freq env = 0 →
        rate_payment_update env m elapsed p mrate emi_val = Except.ok (mrate, emi_val)))) ∧
    (¬ env.policy = "on_reset_only" →
      rate_payment_update env m elapsed p mrate emi_val = rpu_recompute env m elapsed p) := by
  constructor
  · intro hpol
    constructor
    · intro hmod
      unfold rate_payment_update
      rw [if_pos hpol]
      by_cases hm : m = 1
      · rw [if_pos hm]
      · rw [if_neg hm, if_neg (by omega : ¬ reset_freq env = 0), if_pos hmod]
    · intro hmod
      have hm : ¬ m = 1 := by
        intro hm1
        apply hmod
        rw [hm1]
        simp
      unfold rate_payment_update
      rw [if_pos hpol, if_neg hm, if_neg (by omega : ¬ reset_freq env = 0), if_neg hmod]
  · intro hpol
    unfold rate_payment_update
    rw [if_neg hpol]

theorem mortgage_c6_witness :
    1 ≤ reset_freq env_c6 ∧
    ((env_c6.policy = "on_reset_only" →
      ((((2 : ℤ) - 1) % reset_freq env_c6 = 0 →
        rate_payment_update env_c6 2 1 1000 (1/240) 500 = rpu_recompute env_c6 2 1 1000) ∧
       (¬ ((2 : ℤ) - 1) % reset_freq env_c6 = 0 →
        rate_payment_update env_c6 2 1 1000 (1/240) 500 = Except.ok (1/240, 500)))) ∧
     (¬ env_c6.policy = "on_reset_only" →
      rate_payment_update env_c6 2 1 1000 (1/240) 500 = rpu_recompute env_c6 2 1 1000)) :=
  ⟨by decide, mortgage_c6 env_c6 2 1 1000 (1/240) 500 (by decide)⟩

/-- Claim C7: the recommendation is switch exactly when the switch total
cash out is strictly below the stay total cash out, and is stay
otherwise. -/
theorem mortgage_c7 {input : CompareInput} {res : CompareResult}
    (h : compare input = Except.ok res) :
    (res.summary.recommendation = "switch" ↔
      res.summary.switch_total_cash_out_aed < res.summary.stay_total_cash_out_aed) ∧
    (¬ res.summary.switch_total_cash_out_aed < res.summary.stay_total_cash_out_aed →
      res.summary.recommendation = "stay") := by
  obtain ⟨c1, c3, stay, switch, h1, h2, h3, h4, hres⟩ := compare_ok h
  subst hres
  show ((if switch.total_cash < stay.total_cash then "switch" else "stay") = "switch" ↔
    switch.total_cash < stay.total_cash) ∧
    (¬ switch.total_cash < stay.total_cash →
      (if switch.total_cash < stay.total_cash then "switch" else "stay") = "stay")
  split_ifs with hc
  · exact ⟨⟨fun _ => hc, fun _ => rfl⟩, fun hco => absurd hc hco⟩
  · constructor
    · constructor
      · intro hco
        exact absurd hco (by decide)
      · intro hco
        exact absurd hco hc
    · intro _
      rfl

theorem mortgage_c7_witness :
    compare input_c7 = Except.ok res_c7 ∧
    ((res_c7.summary.recommendation = "switch" ↔
      res_c7.summary.switch_total_cash_out_aed < res_c7.summary.stay_total_cash_out_aed) ∧
    (¬ res_c7.summary.switch_total_cash_out_aed < res_c7.summary.stay_total_cash_out_aed →
      res_c7.summary.recommendation = "stay")) :=
  ⟨by decide, @mortgage_c7 input_c7 res_c7 (by decide)⟩

/-- Claim C1 (amended): an absent or empty rate curve for a referenced
index type is not treated as a flat 0 percent index; compare raises a
lookup error instead, namely when either EIBOR key is missing from the
scenarios, or when the curve stored for the current index type is absent
or empty (it is consulted at month 1 of the stay run). -/
theorem mortgage_c1 (input : CompareInput) :
    ((dict_get input.rate_scenarios_base "EIBOR_1M" = none ∨
      dict_get input.rate_scenarios_base "EIBOR_3M" = none) →
      ∃ e, compare input = Except.error e) ∧
    (∀ c1 c3, dict_get input.rate_scenarios_base "EIBOR_1M" = some c1 →
      dict_get input.rate_scenarios_base "EIBOR_3M" = some c3 →
      (dict_get [("EIBOR_1M", c1), ("EIBOR_3M", c3)]
          (build_current_terms input.current_terms).index_type = none ∨
       dict_get [("EIBOR_1M", c1), ("EIBOR_3M", c3)]
          (build_current_terms input.current_terms).index_type = some []) →
      ∃ e, compare input = Except.error e) := by
  constructor
  · intro h
    rcases h with h | h
    · refine ⟨"KeyError: EIBOR_1M", ?_⟩
      unfold compare
      rw [h]
      rfl
    · cases hc1 : dict_get input.rate_scenarios_base "EIBOR_1M" with
      | none =>
        refine ⟨"KeyError: EIBOR_1M", ?_⟩
        unfold compare
        rw [hc1]
        rfl
      | some c1 =>
        refine ⟨"KeyError: EIBOR_3M", ?_⟩
        unfold compare
        rw [hc1, show expectSome (some c1) "KeyError: EIBOR_1M" = Except.ok c1 from rfl,
          ok_bind, h]
        rfl
  · intro c1 c3 hc1 hc3 hidx
    have hrfm : ∃ e2, rate_for_month "stay" (build_current_terms input.current_terms)
        (build_new_terms input.current_terms input.new_offer)
        [("EIBOR_1M", c1), ("EIBOR_3M", c3)] 1 = Except.error e2 := by
      unfold rate_for_month
      rw [if_pos rfl]
      rcases hidx with hidx | hidx
      · refine ⟨"KeyError", ?_⟩
        rw [hidx]
        rfl
      · refine ⟨"IndexError: list index out of range", ?_⟩
        rw [hidx]
        rfl
    obtain ⟨e2, he2⟩ := hrfm
    refine ⟨e2, ?_⟩
    have hro : run_option input.principal_aed input.tenure_months input.horizon_months
        input.prepayment_plan "stay" (build_current_terms input.current_terms)
        (build_new_terms input.current_terms input.new_offer)
        [("EIBOR_1M", c1), ("EIBOR_3M", c3)]
        (input.recompute_policy.getD "on_reset_only")
        (input.auto_estimate_buyout_fees.getD true) = Except.error e2 := by
      unfold run_option
      rw [he2]
      rfl
    unfold compare
    rw [hc1, show expectSome (some c1) "KeyError: EIBOR_1M" = Except.ok c1 from rfl, ok_bind,
      hc3, show expectSome (some c3) "KeyError: EIBOR_3M" = Except.ok c3 from rfl, ok_bind,
      hro]
    rfl

theorem mortgage_c1_counterexample :
    compare input_c1 = Except.error "IndexError: list index out of range" := by decide

theorem mortgage_c1_witness :
    (dict_get input_c1.rate_scenarios_base "EIBOR_1M" = some [] ∧
     dict_get input_c1.rate_scenarios_base "EIBOR_3M" = some [0] ∧
     dict_get [("EIBOR_1M", ([] : List ℚ)), ("EIBOR_3M", [0])]
       (build_current_terms input_c1.current_terms).index_type = some []) ∧
    (∃ e, compare input_c1 = Except.error e) :=
  ⟨⟨by decide, by decide, by decide⟩,
    (mortgage_c1 input_c1).2 [] [0] (by decide) (by decide) (Or.inr (by decide))⟩

/-- Claim C2 (code bug): the switch ledger is supposed to use the new
offer life-insurance settings, but compare builds the switch Terms from
the current terms settings, so with current insurance absent and the new
offer set to fixed_monthly 100 every switch row records 0 insurance where
the new offer settings would charge 100. -/
theorem mortgage_c2_failing :
    (compare input_c2).map (fun res => (res.monthly_cashflows.filter
      (fun r => r.option == "switch")).map (fun r => r.insurance)) = Except.ok [0, 0] ∧
    input_c2.new_offer.life_insurance_method = some "fixed_monthly" ∧
    input_c2.new_offer.life_insurance_value = some 100 ∧
    pyRound2 (insurance_cost "fixed_monthly" 100 500) = 100 := by
  refine ⟨by decide, rfl, rfl, by decide⟩

/-- Claim C9: a singleton rate curve resolves to the same monthly rate,
at every month, as a constant curve of length horizon_months with the
same value, and therefore the whole option run (ledger and totals) is
identical. -/
theorem mortgage_c9 {principal : ℚ} {tenure horizon : ℤ}
    {prepayments : List Prepayment} {optionS : String} {current newT : Terms}
    {policy : String} {auto : Bool} {curves : List (String × List ℚ)}
    {k : String} {r : ℚ}
    (hk : dict_get curves k = some [r]) (hh : 1 ≤ horizon) :
    (∀ m, rate_for_month optionS current newT curves m =
      rate_for_month optionS current newT
        (curve_update curves k (List.replicate horizon.toNat r)) m) ∧
    run_option principal tenure horizon prepayments optionS current newT curves policy auto =
    run_option principal tenure horizon prepayments optionS current newT
      (curve_update curves k (List.replicate horizon.toNat r)) policy auto := by
  have hn : horizon.toNat ≠ 0 := by omega
  have hrm := @rate_for_month_update optionS current newT curves k r horizon.toNat hk hn
  exact ⟨hrm, run_option_curves_congr hrm⟩

theorem mortgage_c9_witness :
    (dict_get curves_w "EIBOR_1M" = some [5/100] ∧ (1 : ℤ) ≤ 2) ∧
    ((∀ m, rate_for_month "stay" (build_current_terms terms_cur_base)
      (build_new_terms terms_cur_base offer_new_base) curves_w m =
      rate_for_month "stay" (build_current_terms terms_cur_base)
        (build_new_terms terms_cur_base offer_new_base)
        (curve_update curves_w "EIBOR_1M" (List.replicate (2 : ℤ).toNat (5/100))) m) ∧
    run_option 1000 2 2 [] "stay" (build_current_terms terms_cur_base)
      (build_new_terms terms_cur_base offer_new_base) curves_w "on_reset_only" false =
    run_option 1000 2 2 [] "stay" (build_current_terms terms_cur_base)
      (build_new_terms terms_cur_base offer_new_base)
      (curve_update curves_w "EIBOR_1M" (List.replicate (2 : ℤ).toNat (5/100)))
      "on_reset_only" false) :=
  ⟨⟨by decide, by decide⟩,
    @mortgage_c9 1000 2 2 [] "stay" (build_current_terms terms_cur_base)
      (build_new_terms terms_cur_base offer_new_base) "on_reset_only" false curves_w
      "EIBOR_1M" (5/100) (by decide) (by decide)⟩

/-- Within the combined ledger the stay and switch rows are recovered
exactly by filtering on the option tag. -/
lemma filter_tags {stay switch : List MonthlyRecord}
    (hs : ∀ r ∈ stay, r.option = "stay") (hw : ∀ r ∈ switch, r.option = "switch") :
    (stay ++ switch).filter (fun r => r.option == "stay") = stay ∧
    (stay ++ switch).filter (fun r => r.option == "switch") = switch := by
  constructor
  · rw [List.filter_append,
      List.filter_eq_self.mpr (fun a ha => by simp [hs a ha]),
      List.filter_eq_nil.mpr (fun a ha => by simp [hw a ha]),
      List.append_nil]
  · rw [List.filter_append,
      List.filter_eq_nil.mpr (fun a ha => by simp [hs a ha]),
      List.filter_eq_self.mpr (fun a ha => by simp [hw a ha]),
      List.nil_append]

/-- Claim C5: if break_even_month is some k then the cumulative switch
cost through k (summing the rounded per-month payment, fees and
insurance of the ledgers) is at most the cumulative stay cost through k,
every earlier month has the switch cumulative cost strictly above the
stay one, and break_even_month is none exactly when no month of the
overlapping ledger length crosses. -/
theorem mortgage_c5 {input : CompareInput} {res : CompareResult}
    (h : compare input = Except.ok res) :
    (∀ k, res.summary.break_even_month = some k →
      1 ≤ k ∧
      k ≤ min ((res.monthly_cashflows.filter (fun r => r.option == "stay")).length)
        ((res.monthly_cashflows.filter (fun r => r.option == "switch")).length) ∧
      cum_cost (res.monthly_cashflows.filter (fun r => r.option == "switch")) k ≤
        cum_cost (res.monthly_cashflows.filter (fun r => r.option == "stay")) k ∧
      ∀ j, 1 ≤ j → j < k →
        cum_cost (res.monthly_cashflows.filter (fun r => r.option == "stay")) j <
        cum_cost (res.monthly_cashflows.filter (fun r => r.option == "switch")) j) ∧
    (res.summary.break_even_month = none ↔
      ∀ m, 1 ≤ m →
        m ≤ min ((res.monthly_cashflows.filter (fun r => r.option == "stay")).length)
          ((res.monthly_cashflows.filter (fun r => r.option == "switch")).length) →
        cum_cost (res.monthly_cashflows.filter (fun r => r.option == "stay")) m <
        cum_cost (res.monthly_cashflows.filter (fun r => r.option == "switch")) m) := by
  obtain ⟨c1, c3, stay, switch, h1, h2, h3, h4, hres⟩ := compare_ok h
  subst hres
  obtain ⟨m1, e1, lr1, hr1, he1, hl1, hstay⟩ := run_option_ok h3
  obtain ⟨m2, e2, lr2, hr2, he2, hl2, hswitch⟩ := run_option_ok h4
  have htag1 : ∀ rec ∈ stay.cashflows, rec.option = "stay" := by
    intro rec hrec
    rw [hstay] at hrec
    exact run_loop_tag hl1 rec hrec
  have htag2 : ∀ rec ∈ switch.cashflows, rec.option = "switch" := by
    intro rec hrec
    rw [hswitch] at hrec
    exact run_loop_tag hl2 rec hrec
  have hfil := filter_tags htag1 htag2
  obtain ⟨hnone, hsome⟩ := break_even_char stay.cashflows switch.cashflows
  simp only [assemble]
  rw [hfil.1, hfil.2]
  exact ⟨fun k hk => hsome k hk, hnone⟩

theorem mortgage_c5_witness :
    compare input_c7 = Except.ok res_c5 ∧
    ((∀ k, res_c5.summary.break_even_month = some k →
      1 ≤ k ∧
      k ≤ min ((res_c5.monthly_cashflows.filter (fun r => r.option == "stay")).length)
        ((res_c5.monthly_cashflows.filter (fun r => r.option == "switch")).length) ∧
      cum_cost (res_c5.monthly_cashflows.filter (fun r => r.option == "switch")) k ≤
        cum_cost (res_c5.monthly_cashflows.filter (fun r => r.option == "stay")) k ∧
      ∀ j, 1 ≤ j → j < k →
        cum_cost (res_c5.monthly_cashflows.filter (fun r => r.option == "stay")) j <
        cum_cost (res_c5.monthly_cashflows.filter (fun r => r.option == "switch")) j) ∧
    (res_c5.summary.break_even_month = none ↔
      ∀ m, 1 ≤ m →
        m ≤ min ((res_c5.monthly_cashflows.filter (fun r => r.option == "stay")).length)
          ((res_c5.monthly_cashflows.filter (fun r => r.option == "switch")).length) →
        cum_cost (res_c5.monthly_cashflows.filter (fun r => r.option == "stay")) m <
        cum_cost (res_c5.monthly_cashflows.filter (fun r => r.option == "switch")) m)) :=
  ⟨by decide, @mortgage_c5 input_c7 res_c5 (by decide)⟩

lemma option_terms_stay (current newT : Terms) :
    option_terms "stay" current newT = current := by
  unfold option_terms
  rw [if_pos rfl]

theorem mortgage_c8_counterexample :
    (compare input_c8).map (fun res => res.summary.switch_total_cash_out_aed) =
      Except.ok (-8000) ∧
    ((-8000 : ℚ) < 0) ∧
    input_c8.prepayment_plan = [] ∧
    input_c8.current_terms.fees = none ∧ input_c8.new_offer.fees = none ∧
    input_c8.current_terms.life_insurance_value = none :=
  ⟨by decide, by decide, rfl, rfl, rfl, rfl⟩

/-- Claim C8 (amended): for every successful run of compare each option
ledger has at most horizon_months rows; and additionally, for positive
principal and tenure, nonnegative fees, insurance values and prepayments,
and nonnegative rate inputs (floors, margins and fixed rate, which the
stated claim omits and which the counterexample shows to be necessary),
both total cash outs are nonnegative. -/
theorem mortgage_c8 {input : CompareInput} {res : CompareResult}
    (h : compare input = Except.ok res)
    (hh : 0 ≤ input.horizon_months) :
    ((res.monthly_cashflows.filter (fun r => r.option == "stay")).length : ℤ) ≤
      input.horizon_months ∧
    ((res.monthly_cashflows.filter (fun r => r.option == "switch")).length : ℤ) ≤
      input.horizon_months ∧
    (0 < input.principal_aed → 1 ≤ input.tenure_months →
     (∀ f ∈ input.current_terms.fees.getD [], 0 ≤ f.amount_aed) →
     (∀ f ∈ input.new_offer.fees.getD [], 0 ≤ f.amount_aed) →
     0 ≤ input.current_terms.life_insurance_value.getD 0 →
     (∀ pp ∈ input.prepayment_plan, 0 ≤ pp.amount) →
     0 ≤ input.current_terms.floor_rate_annual.getD 0 →
     0 ≤ input.current_terms.margin_bps →
     0 ≤ input.new_offer.floor_rate_annual.getD 0 →
     0 ≤ input.new_offer.reversion_margin_bps.getD 0 →
     0 ≤ input.new_offer.fixed_rate_annual →
     0 ≤ res.summary.stay_total_cash_out_aed ∧
     0 ≤ res.summary.switch_total_cash_out_aed) := by
  obtain ⟨c1, c3, stay, switch, h1, h2, h3, h4, hres⟩ := compare_ok h
  subst hres
  obtain ⟨m1, e1, lr1, hr1, he1, hl1, hstay⟩ := run_option_ok h3
  obtain ⟨m2, e2, lr2, hr2, he2, hl2, hswitch⟩ := run_option_ok h4
  have htag1 : ∀ rec ∈ stay.cashflows, rec.option = "stay" := by
    intro rec hrec
    rw [hstay] at hrec
    exact run_loop_tag hl1 rec hrec
  have htag2 : ∀ rec ∈ switch.cashflows, rec.option = "switch" := by
    intro rec hrec
    rw [hswitch] at hrec
    exact run_loop_tag hl2 rec hrec
  have hfil := filter_tags htag1 htag2
  have hlen1 : stay.cashflows.length ≤ input.horizon_months.toNat := by
    rw [hstay]
    exact run_loop_length hl1
  have hlen2 : switch.cashflows.length ≤ input.horizon_months.toNat := by
    rw [hswitch]
    exact run_loop_length hl2
  simp only [assemble]
  rw [hfil.1, hfil.2]
  refine ⟨by omega, by omega, ?_⟩
  intro hp ht hfee1 hfee2 hins hpp hfloor hmargin hfloor2 hmargin2 hfixed
  have hrate1 : ∀ (k : ℕ) (rr : ℚ), rate_for_month "stay"
      (build_current_terms input.current_terms)
      (build_new_terms input.current_terms input.new_offer)
      [("EIBOR_1M", c1), ("EIBOR_3M", c3)] k = Except.ok rr → 0 ≤ rr := by
    intro k rr hok
    refine rate_for_month_nonneg ?_ ?_ ?_ ?_ ?_ hok
    · exact hfloor
    · exact hmargin
    · exact hfloor2
    · exact hmargin2
    · exact hfixed
  have hrate2 : ∀ (k : ℕ) (rr : ℚ), rate_for_month "switch"
      (build_current_terms input.current_terms)
      (build_new_terms input.current_terms input.new_offer)
      [("EIBOR_1M", c1), ("EIBOR_3M", c3)] k = Except.ok rr → 0 ≤ rr := by
    intro k rr hok
    refine rate_for_month_nonneg ?_ ?_ ?_ ?_ ?_ hok
    · exact hfloor
    · exact hmargin
    · exact hfloor2
    · exact hmargin2
    · exact hfixed
  have hm1 : 0 ≤ m1 := hrate1 1 m1 hr1
  have hm2 : 0 ≤ m2 := hrate2 1 m2 hr2
  rw [emi_eq_ok hm1 ht] at he1
  rw [emi_eq_ok hm2 ht] at he2
  simp only [Except.ok.injEq] at he1 he2
  have he1n : 0 ≤ e1 := he1 ▸ emiValue_nonneg hp.le hm1 ht
  have he2n : 0 ≤ e2 := he2 ▸ emiValue_nonneg hp.le hm2 ht
  have hof1 : ∀ f ∈ option_fees input.principal_aed "stay"
      (build_current_terms input.current_terms)
      (build_new_terms input.current_terms input.new_offer)
      (input.auto_estimate_buyout_fees.getD true), 0 ≤ f.amount_aed := by
    apply option_fees_amounts_nonneg hp.le
    · rw [option_terms_stay]
      exact hfee1
    · exact hfee1
  have hof2 : ∀ f ∈ option_fees input.principal_aed "switch"
      (build_current_terms input.current_terms)
      (build_new_terms input.current_terms input.new_offer)
      (input.auto_estimate_buyout_fees.getD true), 0 ≤ f.amount_aed := by
    apply option_fees_amounts_nonneg hp.le
    · rw [option_terms_switch]
      exact hfee2
    · exact hfee1
  have htot1 : 0 ≤ lr1.2 := by
    obtain ⟨lrl, lrt⟩ := lr1
    refine run_loop_total_nonneg ?_ ?_ ?_ ?_ ?_ hl1 hp.le hm1 he1n ?_
    · exact hrate1
    · exact hpp
    · exact fee_sum_nonneg hof1
    · exact fee_sum_nonneg hof1
    · exact hins
    · exact fee_sum_nonneg hof1
  have htot2 : 0 ≤ lr2.2 := by
    obtain ⟨lrl, lrt⟩ := lr2
    refine run_loop_total_nonneg ?_ ?_ ?_ ?_ ?_ hl2 hp.le hm2 he2n ?_
    · exact hrate2
    · exact hpp
    · exact fee_sum_nonneg hof2
    · exact fee_sum_nonneg hof2
    · exact hins
    · exact fee_sum_nonneg hof2
  refine ⟨?_, ?_⟩
  · rw [hstay]
    exact pyRound2_nonneg htot1
  · rw [hswitch]
    exact pyRound2_nonneg htot2

theorem mortgage_c8_witness :
    compare input_base = Except.ok res_c8 ∧
    (((res_c8.monthly_cashflows.filter (fun r => r.option == "stay")).length : ℤ) ≤
      input_base.horizon_months ∧
    ((res_c8.monthly_cashflows.filter (fun r => r.option == "switch")).length : ℤ) ≤
      input_base.horizon_months ∧
    (0 < input_base.principal_aed → 1 ≤ input_base.tenure_months →
     (∀ f ∈ input_base.current_terms.fees.getD [], 0 ≤ f.amount_aed) →
     (∀ f ∈ input_base.new_offer.fees.getD [], 0 ≤ f.amount_aed) →
     0 ≤ input_base.current_terms.life_insurance_value.getD 0 →
     (∀ pp ∈ input_base.prepayment_plan, 0 ≤ pp.amount) →
     0 ≤ input_base.current_terms.floor_rate_annual.getD 0 →
     0 ≤ input_base.current_terms.margin_bps →
     0 ≤ input_base.new_offer.floor_rate_annual.getD 0 →
     0 ≤ input_base.new_offer.reversion_margin_bps.getD 0 →
     0 ≤ input_base.new_offer.fixed_rate_annual →
     0 ≤ res_c8.summary.stay_total_cash_out_aed ∧
     0 ≤ res_c8.summary.switch_total_cash_out_aed)) :=
  ⟨by decide, @mortgage_c8 input_base res_c8 (by decide) (by decide)⟩

theorem mortgage_c3_counterexample :
    ((compare inC3a).map (fun res => (res.monthly_cashflows.filter
        (fun q => q.option == "stay")).map (fun q => q.principal_remaining)) =
      Except.ok [500] ∧
      inC3a.tenure_months = 2 ∧ inC3a.prepayment_plan = []) ∧
    ((compare inC3b).map (fun res => (res.monthly_cashflows.filter
        (fun q => q.option == "switch")).map (fun q => q.principal_remaining)) =
      Except.ok [1000, 1000] ∧
      inC3b.tenure_months = 2 ∧ inC3b.horizon_months = 2 ∧
      inC3b.prepayment_plan = []) ∧
    ((compare inC3c).map (fun res => (res.monthly_cashflows.filter
        (fun q => q.option == "stay")).map (fun q => q.principal_remaining)) =
      Except.ok [600, 400, 200] ∧
      inC3c.tenure_months = 3 ∧ inC3c.horizon_months = 3 ∧
      ∀ pp ∈ inC3c.prepayment_plan, 0 ≤ pp.amount) := by
  exact ⟨⟨by decide, by decide, by decide⟩, ⟨by decide, by decide, by decide, by decide⟩,
    ⟨by decide, by decide, by decide, by decide⟩⟩

/-- Claim C3 (amended): within one option ledger, for positive principal,
tenure at least one month and nonnegative prepayment amounts,
principal_remaining is non-increasing month over month starting from the
rounded principal and never below 0; and it reaches exactly 0 at a month
at most tenure_months provided additionally (which the stated claim
omits) that the horizon covers the tenure, the rate inputs are
nonnegative and no prepayment uses the reduce_emi method. -/
theorem mortgage_c3 {principal : ℚ} {tenure horizon : ℤ}
    {prepayments : List Prepayment} {optionS : String} {current newT : Terms}
    {curves : List (String × List ℚ)} {policy : String} {auto : Bool}
    {r : RunResult}
    (h : run_option principal tenure horizon prepayments optionS current newT
      curves policy auto = Except.ok r)
    (hp : 0 < principal) (ht : 1 ≤ tenure)
    (hamt : ∀ pp ∈ prepayments, 0 ≤ pp.amount) :
    (List.Chain (fun a b => b ≤ a) (pyRound2 principal)
      (r.cashflows.map (fun q => q.principal_remaining)) ∧
     ∀ q ∈ r.cashflows, 0 ≤ q.principal_remaining) ∧
    (tenure ≤ horizon →
     (∀ pp ∈ prepayments, pp.method ≠ "reduce_emi") →
     0 ≤ current.floor_rate_annual → 0 ≤ current.margin_bps →
     0 ≤ newT.floor_rate_annual → 0 ≤ newT.reversion_margin_bps.getD 0 →
     0 ≤ newT.fixed_rate_annual.getD 0 →
     ∃ last, r.cashflows.getLast? = some last ∧
       last.principal_remaining = 0 ∧ (last.month : ℤ) ≤ tenure) := by
  obtain ⟨m1, e1, lr1, hr1, he1, hl1, hres⟩ := run_option_ok h
  obtain ⟨lrl, lrt⟩ := lr1
  subst hres
  constructor
  · exact run_loop_chain hamt hl1 hp.le
  · intro hth hnored hf1 hf2 hf3 hf4 hf5
    have hrate : ∀ (k : ℕ) (rr : ℚ), rate_for_month optionS current newT curves k =
        Except.ok rr → 0 ≤ rr :=
      fun k rr hok => rate_for_month_nonneg hf1 hf2 hf3 hf4 hf5 hok
    have hm1 : 0 ≤ m1 := hrate 1 m1 hr1
    rw [emi_eq_ok hm1 ht] at he1
    simp only [Except.ok.injEq] at he1
    obtain ⟨last, hg, hz, hm⟩ := run_loop_reach_zero hrate hamt hnored hl1
      (by simp only [run_env]; omega) hp
      (by simp only [run_env]; omega) hm1
      (by simp only [run_env, Nat.cast_zero, sub_zero]; exact he1.le)
    exact ⟨last, hg, hz, hm⟩

theorem mortgage_c3_witness :
    run_option 1000 2 2 [] "stay" (build_current_terms terms_cur_base)
      (build_new_terms terms_cur_base offer_new_base)
      [("EIBOR_1M", [0]), ("EIBOR_3M", [0])] "on_reset_only" false =
      Except.ok res_c3 ∧
    ((List.Chain (fun a b => b ≤ a) (pyRound2 1000)
      (res_c3.cashflows.map (fun q => q.principal_remaining)) ∧
     ∀ q ∈ res_c3.cashflows, 0 ≤ q.principal_remaining) ∧
    ((2 : ℤ) ≤ 2 →
     (∀ pp ∈ ([] : List Prepayment), pp.method ≠ "reduce_emi") →
     0 ≤ (build_current_terms terms_cur_base).floor_rate_annual →
     0 ≤ (build_current_terms terms_cur_base).margin_bps →
     0 ≤ (build_new_terms terms_cur_base offer_new_base).floor_rate_annual →
     0 ≤ (build_new_terms terms_cur_base offer_new_base).reversion_margin_bps.getD 0 →
     0 ≤ (build_new_terms terms_cur_base offer_new_base).fixed_rate_annual.getD 0 →
     ∃ last, res_c3.cashflows.getLast? = some last ∧
       last.principal_remaining = 0 ∧ (last.month : ℤ) ≤ 2)) :=
  ⟨by decide, @mortgage_c3 1000 2 2 [] "stay" (build_current_terms terms_cur_base)
    (build_new_terms terms_cur_base offer_new_base)
    [("EIBOR_1M", [0]), ("EIBOR_3M", [0])] "on_reset_only" false res_c3
    (by decide) (by decide) (by decide) (by simp)⟩

theorem mortgage_c4_counterexample :
    relFee1000 ∈ std_letter_fees ∧
    "release_letter_fee" ∈ (inC4.new_offer.fees.getD []).map (fun g => g.ftype) ∧
    inC4.auto_estimate_buyout_fees = some true ∧
    (compare inC4).map (fun res => List.count relFee1000 res.fees_switch) =
      Except.ok 1 :=
  ⟨by decide, by decide, rfl, by decide⟩

/-- Claim C4 (amended): for the switch option with automatic fee
estimation on, each of the five standard buyout fees is added exactly
once iff its type is absent from the new offer's fee list, while the
release-letter and liability-letter fees are added exactly once iff their
type is absent from the current terms' fee list (not, as the stated claim
has it, the switch option's own list); the applied upfront fees are the
rounded sum of the upfront timings of the assembled list, and the total
cash out is the rounded sum of that upfront total and the accumulated
monthly flows. -/
theorem mortgage_c4 {principal : ℚ} {tenure horizon : ℤ}
    {prepayments : List Prepayment} {current newT : Terms}
    {curves : List (String × List ℚ)} {policy : String} {r : RunResult}
    (h : run_option principal tenure horizon prepayments "switch" current newT
      curves policy true = Except.ok r) :
    (∀ f ∈ std_buyout_fees principal,
      List.count f r.fees_list = List.count f newT.fees +
        (if f.ftype ∈ newT.fees.map (fun g => g.ftype) then 0 else 1)) ∧
    (∀ f ∈ std_letter_fees,
      List.count f r.fees_list = List.count f newT.fees +
        (if f.ftype ∈ current.fees.map (fun g => g.ftype) then 0 else 1)) ∧
    r.applied_upfront_fees = pyRound2 (fee_sum r.fees_list "upfront") ∧
    ∃ mrate emi_val recs fin0,
      rate_for_month "switch" current newT curves 1 = Except.ok mrate ∧
      emi principal mrate tenure = Except.ok emi_val ∧
      run_loop (run_env principal tenure prepayments "switch" current newT curves
        policy true) horizon.toNat 0 principal mrate emi_val 0 =
        Except.ok (recs, fin0) ∧
      r.cashflows = recs ∧
      r.total_cash = pyRound2 (fin0 + fee_sum r.fees_list "upfront") := by
  obtain ⟨m1, e1, lr1, hr1, he1, hl1, hres⟩ := run_option_ok h
  obtain ⟨recs, fin⟩ := lr1
  subst hres
  have heq : option_fees principal "switch" current newT true =
      assemble_fees principal "switch" current newT true := by
    unfold option_fees
    rw [option_terms_switch]
  refine ⟨?_, ?_, rfl, ?_⟩
  · intro f hf
    have hne : f.ftype ≠ "early_settlement_penalty_old_bank" := by
      simp only [std_buyout_fees, List.mem_cons, List.not_mem_nil, or_false] at hf
      rcases hf with rfl | rfl | rfl | rfl | rfl <;> simp
    show List.count f (option_fees principal "switch" current newT true) = _
    rw [heq, count_assemble hne, if_pos ⟨rfl, rfl⟩,
      count_estimate_buyout principal newT.fees f hf,
      count_estimate_release_of_buyout principal current.fees f hf, add_zero]
  · intro f hf
    have hne : f.ftype ≠ "early_settlement_penalty_old_bank" := by
      simp only [std_letter_fees, List.mem_cons, List.not_mem_nil, or_false] at hf
      rcases hf with rfl | rfl <;> decide
    show List.count f (option_fees principal "switch" current newT true) = _
    rw [heq, count_assemble hne, if_pos ⟨rfl, rfl⟩,
      count_estimate_buyout_of_letter principal newT.fees f hf,
      count_estimate_release current.fees f hf, zero_add]
  · refine ⟨m1, e1, recs,
      fin - fee_sum (option_fees principal "switch" current newT true) "upfront" + 0,
      hr1, he1, run_loop_total_shift hl1 0, rfl, ?_⟩
    show pyRound2 fin = pyRound2 _
    exact congrArg pyRound2 (by ring)

theorem mortgage_c4_witness :
    run_option 1000 2 2 [] "switch" (build_current_terms terms_cur_base)
      (build_new_terms terms_cur_base offer_new_base)
      [("EIBOR_1M", [0]), ("EIBOR_3M", [0])] "on_reset_only" true =
      Except.ok res_c4 ∧
    ((∀ f ∈ std_buyout_fees 1000,
      List.count f res_c4.fees_list =
        List.count f (build_new_terms terms_cur_base offer_new_base).fees +
        (if f.ftype ∈ (build_new_terms terms_cur_base offer_new_base).fees.map
          (fun g => g.ftype) then 0 else 1)) ∧
    (∀ f ∈ std_letter_fees,
      List.count f res_c4.fees_list =
        List.count f (build_new_terms terms_cur_base offer_new_base).fees +
        (if f.ftype ∈ (build_current_terms terms_cur_base).fees.map
          (fun g => g.ftype) then 0 else 1)) ∧
    res_c4.applied_upfront_fees = pyRound2 (fee_sum res_c4.fees_list "upfront") ∧
    ∃ mrate emi_val recs fin0,
      rate_for_month "switch" (build_current_terms terms_cur_base)
        (build_new_terms terms_cur_base offer_new_base)
        [("EIBOR_1M", [0]), ("EIBOR_3M", [0])] 1 = Except.ok mrate ∧
      emi 1000 mrate 2 = Except.ok emi_val ∧
      run_loop (run_env 1000 2 [] "switch" (build_current_terms terms_cur_base)
        (build_new_terms terms_cur_base offer_new_base)
        [("EIBOR_1M", [0]), ("EIBOR_3M", [0])] "on_reset_only" true)
        (2 : ℤ).toNat 0 1000 mrate emi_val 0 = Except.ok (recs, fin0) ∧
      res_c4.cashflows = recs ∧
      res_c4.total_cash = pyRound2 (fin0 + fee_sum res_c4.fees_list "upfront")) :=
  ⟨by rfl, @mortgage_c4 1000 2 2 [] (build_current_terms terms_cur_base)
    (build_new_terms terms_cur_base offer_new_base)
    [("EIBOR_1M", [0]), ("EIBOR_3M", [0])] "on_reset_only" res_c4 (by rfl)⟩

lemma fee_sum_append (l1 l2 : List Fee) (t : String) :
    fee_sum (l1 ++ l2) t = fee_sum l1 t + fee_sum l2 t := by
  unfold fee_sum
  rw [List.filter_append, List.map_append, List.sum_append]

lemma fee_sum_extra_upfront (k : ℤ) :
    fee_sum [extraFee k] "upfront" = (k : ℚ) / 50 := by
  simp [fee_sum, extraFee]

lemma fee_sum_extra_monthly (k : ℤ) : fee_sum [extraFee k] "monthly" = 0 := by
  simp [fee_sum, extraFee]

lemma fee_sum_extra_annual (k : ℤ) : fee_sum [extraFee k] "annual" = 0 := by
  simp [fee_sum, extraFee]

/-- For the stay option no fee is synthesized and no early-settlement
penalty applies, so the assembled list is just the terms' own list. -/
lemma option_fees_stay (principal : ℚ) (current newT : Terms) (auto : Bool) :
    option_fees principal "stay" current newT auto = current.fees := by
  unfold option_fees
  rw [option_terms_stay]
  simp [assemble_fees]

/-- Appending a fee of the fresh type extra_upfront_fee does not change
which letter fees the estimator considers missing. -/
lemma estimate_release_append_extra (l : List Fee) (k : ℤ) :
    estimate_release_and_liability_if_missing (l ++ [extraFee k]) =
    estimate_release_and_liability_if_missing l := by
  unfold estimate_release_and_liability_if_missing
  simp [extraFee, List.mem_append]

/-- The switch fee assembly depends on the current terms only through
the missing-letter estimate and the early-settlement fields. -/
lemma assemble_fees_switch_congr (principal : ℚ) (cur1 cur2 terms : Terms)
    (auto : Bool)
    (hrel : estimate_release_and_liability_if_missing cur1.fees =
      estimate_release_and_liability_if_missing cur2.fees)
    (hes : cur1.es_percent = cur2.es_percent)
    (hcap : cur1.es_cap_aed = cur2.es_cap_aed) :
    assemble_fees principal "switch" cur1 terms auto =
    assemble_fees principal "switch" cur2 terms auto := by
  unfold assemble_fees
  simp only [hrel, hes, hcap]

/-- The loop result depends on the environment only through the tenure,
option tag, policy, prepayments, resolved rates, reset frequency, fee
sums and the insurance method and value of the active terms. -/
lemma run_loop_congr2 (tenure : ℤ) (optionS : String)
    (cur1 new1 terms1 cur2 new2 terms2 : Terms) (policy : String)
    (prepay : List Prepayment) (mfs1 afs1 mfs2 afs2 : ℚ)
    {c1 c2 : List (String × List ℚ)}
    (h : ∀ m, rate_for_month optionS cur1 new1 c1 m =
      rate_for_month optionS cur2 new2 c2 m)
    (hfreq : reset_freq ⟨tenure, optionS, cur1, new1, terms1, c1, policy, prepay, mfs1, afs1⟩ =
      reset_freq ⟨tenure, optionS, cur2, new2, terms2, c2, policy, prepay, mfs2, afs2⟩)
    (hmeth : strOr terms1.life_insurance_method "none" =
      strOr terms2.life_insurance_method "none")
    (hval : terms1.life_insurance_value = terms2.life_insurance_value)
    (hmf : mfs1 = mfs2) (haf : afs1 = afs2) :
    ∀ (fuel elapsed : ℕ) (p mrate ev total : ℚ),
    run_loop ⟨tenure, optionS, cur1, new1, terms1, c1, policy, prepay, mfs1, afs1⟩
      fuel elapsed p mrate ev total =
    run_loop ⟨tenure, optionS, cur2, new2, terms2, c2, policy, prepay, mfs2, afs2⟩
      fuel elapsed p mrate ev total := by
  subst hmf
  subst haf
  intro fuel
  induction fuel with
  | zero => intro elapsed p mrate ev total; rfl
  | succ fuel ih =>
    intro elapsed p mrate ev total
    have hrpu : ∀ (m elapsed2 : ℕ) (p2 mr2 ev2 : ℚ),
        rate_payment_update ⟨tenure, optionS, cur1, new1, terms1, c1, policy, prepay, mfs1, afs1⟩
          m elapsed2 p2 mr2 ev2 =
        rate_payment_update ⟨tenure, optionS, cur2, new2, terms2, c2, policy, prepay, mfs1, afs1⟩
          m elapsed2 p2 mr2 ev2 := by
      intro m elapsed2 p2 mr2 ev2
      unfold rate_payment_update rpu_recompute
      rw [h m, hfreq]
    have hins : ∀ q : ℚ,
        month_insurance ⟨tenure, optionS, cur1, new1, terms1, c1, policy, prepay, mfs1, afs1⟩ q =
        month_insurance ⟨tenure, optionS, cur2, new2, terms2, c2, policy, prepay, mfs1, afs1⟩ q := by
      intro q
      unfold month_insurance
      rw [hmeth, hval]
    simp only [run_loop, month_fees, month_entry]
    simp only [hrpu, hins, ih]

/-- Claim C10: the break-even month is computed from the rounded monthly
emi, fees and insurance columns only, while each option's total cash out
also counts its upfront fees: appending an extra upfront fee to the
current terms changes no monthly row and not the break-even month, but
raises the stay total and the stay upfront sum by exactly the fee amount;
consequently there are inputs whose break-even month is non-null with
recommendation stay, and inputs with recommendation switch and null
break-even month. -/
theorem mortgage_c10 {input : CompareInput} {res : CompareResult} (k : ℤ)
    (h : compare input = Except.ok res) :
    (∃ res2, compare (add_cur_upfront input k) = Except.ok res2 ∧
      res2.monthly_cashflows = res.monthly_cashflows ∧
      res2.summary.break_even_month = res.summary.break_even_month ∧
      res2.summary.switch_total_cash_out_aed = res.summary.switch_total_cash_out_aed ∧
      res2.summary.stay_total_cash_out_aed =
        res.summary.stay_total_cash_out_aed + (k : ℚ) / 50 ∧
      res2.upfront_stay = res.upfront_stay + (k : ℚ) / 50) ∧
    (compare inC10a).map
      (fun r => (r.summary.break_even_month, r.summary.recommendation)) =
      Except.ok (some 1, "stay") ∧
    (compare inC10b).map
      (fun r => (r.summary.break_even_month, r.summary.recommendation)) =
      Except.ok (none, "switch") := by
  refine ⟨?_, by rfl, by rfl⟩
  obtain ⟨c1, c3, stay, switch, h1, h2, h3, h4, hres⟩ := compare_ok h
  obtain ⟨m1, e1, lr1, hr1, he1, hl1, hstay⟩ := run_option_ok h3
  obtain ⟨recs, fin⟩ := lr1
  subst hres
  subst hstay
  have hOFstay2 : option_fees input.principal_aed "stay"
      (build_current_terms (add_cur_upfront input k).current_terms)
      (build_new_terms (add_cur_upfront input k).current_terms
        (add_cur_upfront input k).new_offer)
      (input.auto_estimate_buyout_fees.getD true) =
      (build_current_terms input.current_terms).fees ++ [extraFee k] := by
    rw [option_fees_stay]
    exact rfl
  have hOFswitch2 : option_fees input.principal_aed "switch"
      (build_current_terms (add_cur_upfront input k).current_terms)
      (build_new_terms input.current_terms input.new_offer)
      (input.auto_estimate_buyout_fees.getD true) =
      option_fees input.principal_aed "switch"
        (build_current_terms input.current_terms)
        (build_new_terms input.current_terms input.new_offer)
        (input.auto_estimate_buyout_fees.getD true) := by
    unfold option_fees
    rw [option_terms_switch, option_terms_switch]
    refine assemble_fees_switch_congr _ _ _ _ _ ?_ rfl rfl
    rw [show (build_current_terms (add_cur_upfront input k).current_terms).fees =
      (build_current_terms input.current_terms).fees ++ [extraFee k] from rfl]
    exact estimate_release_append_extra (build_current_terms input.current_terms).fees k
  have hmf2 : fee_sum (option_fees input.principal_aed "stay"
      (build_current_terms (add_cur_upfront input k).current_terms)
      (build_new_terms (add_cur_upfront input k).current_terms
        (add_cur_upfront input k).new_offer)
      (input.auto_estimate_buyout_fees.getD true)) "monthly" =
      fee_sum (option_fees input.principal_aed "stay"
        (build_current_terms input.current_terms)
        (build_new_terms input.current_terms input.new_offer)
        (input.auto_estimate_buyout_fees.getD true)) "monthly" := by
    rw [hOFstay2, option_fees_stay, fee_sum_append, fee_sum_extra_monthly, add_zero]
  have haf2 : fee_sum (option_fees input.principal_aed "stay"
      (build_current_terms (add_cur_upfront input k).current_terms)
      (build_new_terms (add_cur_upfront input k).current_terms
        (add_cur_upfront input k).new_offer)
      (input.auto_estimate_buyout_fees.getD true)) "annual" =
      fee_sum (option_fees input.principal_aed "stay"
        (build_current_terms input.current_terms)
        (build_new_terms input.current_terms input.new_offer)
        (input.auto_estimate_buyout_fees.getD true)) "annual" := by
    rw [hOFstay2, option_fees_stay, fee_sum_append, fee_sum_extra_annual, add_zero]
  have hup2 : fee_sum (option_fees input.principal_aed "stay"
      (build_current_terms (add_cur_upfront input k).current_terms)
      (build_new_terms (add_cur_upfront input k).current_terms
        (add_cur_upfront input k).new_offer)
      (input.auto_estimate_buyout_fees.getD true)) "upfront" =
      fee_sum (option_fees input.principal_aed "stay"
        (build_current_terms input.current_terms)
        (build_new_terms input.current_terms input.new_offer)
        (input.auto_estimate_buyout_fees.getD true)) "upfront" + (k : ℚ) / 50 := by
    rw [hOFstay2, option_fees_stay, fee_sum_append, fee_sum_extra_upfront]
  have hloopstay : ∀ (fuel el : ℕ) (p2 mr ev tt : ℚ),
      run_loop (run_env input.principal_aed input.tenure_months input.prepayment_plan
        "stay" (build_current_terms (add_cur_upfront input k).current_terms)
        (build_new_terms (add_cur_upfront input k).current_terms
          (add_cur_upfront input k).new_offer)
        [("EIBOR_1M", c1), ("EIBOR_3M", c3)]
        (input.recompute_policy.getD "on_reset_only")
        (input.auto_estimate_buyout_fees.getD true)) fuel el p2 mr ev tt =
      run_loop (run_env input.principal_aed input.tenure_months input.prepayment_plan
        "stay" (build_current_terms input.current_terms)
        (build_new_terms input.current_terms input.new_offer)
        [("EIBOR_1M", c1), ("EIBOR_3M", c3)]
        (input.recompute_policy.getD "on_reset_only")
        (input.auto_estimate_buyout_fees.getD true)) fuel el p2 mr ev tt := by
    intro fuel el p2 mr ev tt
    exact run_loop_congr2 input.tenure_months "stay"
      (build_current_terms (add_cur_upfront input k).current_terms)
      (build_new_terms (add_cur_upfront input k).current_terms
        (add_cur_upfront input k).new_offer)
      (option_terms "stay"
        (build_current_terms (add_cur_upfront input k).current_terms)
        (build_new_terms (add_cur_upfront input k).current_terms
          (add_cur_upfront input k).new_offer))
      (build_current_terms input.current_terms)
      (build_new_terms input.current_terms input.new_offer)
      (option_terms "stay" (build_current_terms input.current_terms)
        (build_new_terms input.current_terms input.new_offer))
      (input.recompute_policy.getD "on_reset_only") input.prepayment_plan
      _ _ _ _ (fun m => rfl) rfl rfl rfl hmf2 haf2 fuel el p2 mr ev tt
  have hloopswitch : ∀ (fuel el : ℕ) (p2 mr ev tt : ℚ),
      run_loop (run_env input.principal_aed input.tenure_months input.prepayment_plan
        "switch" (build_current_terms (add_cur_upfront input k).current_terms)
        (build_new_terms input.current_terms input.new_offer)
        [("EIBOR_1M", c1), ("EIBOR_3M", c3)]
        (input.recompute_policy.getD "on_reset_only")
        (input.auto_estimate_buyout_fees.getD true)) fuel el p2 mr ev tt =
      run_loop (run_env input.principal_aed input.tenure_months input.prepayment_plan
        "switch" (build_current_terms input.current_terms)
        (build_new_terms input.current_terms input.new_offer)
        [("EIBOR_1M", c1), ("EIBOR_3M", c3)]
        (input.recompute_policy.getD "on_reset_only")
        (input.auto_estimate_buyout_fees.getD true)) fuel el p2 mr ev tt := by
    intro fuel el p2 mr ev tt
    exact run_loop_congr2 input.tenure_months "switch"
      (build_current_terms (add_cur_upfront input k).current_terms)
      (build_new_terms input.current_terms input.new_offer)
      (option_terms "switch"
        (build_current_terms (add_cur_upfront input k).current_terms)
        (build_new_terms input.current_terms input.new_offer))
      (build_current_terms input.current_terms)
      (build_new_terms input.current_terms input.new_offer)
      (option_terms "switch" (build_current_terms input.current_terms)
        (build_new_terms input.current_terms input.new_offer))
      (input.recompute_policy.getD "on_reset_only") input.prepayment_plan
      _ _ _ _ (fun m => rfl) rfl rfl rfl
      (by rw [show option_fees input.principal_aed "switch"
          (build_current_terms (add_cur_upfront input k).current_terms)
          (build_new_terms input.current_terms input.new_offer)
          (input.auto_estimate_buyout_fees.getD true) =
          option_fees input.principal_aed "switch"
            (build_current_terms input.current_terms)
            (build_new_terms input.current_terms input.new_offer)
            (input.auto_estimate_buyout_fees.getD true) from hOFswitch2])
      (by rw [show option_fees input.principal_aed "switch"
          (build_current_terms (add_cur_upfront input k).current_terms)
          (build_new_terms input.current_terms input.new_offer)
          (input.auto_estimate_buyout_fees.getD true) =
          option_fees input.principal_aed "switch"
            (build_current_terms input.current_terms)
            (build_new_terms input.current_terms input.new_offer)
            (input.auto_estimate_buyout_fees.getD true) from hOFswitch2])
      fuel el p2 mr ev tt
  have hstay2 : run_option input.principal_aed input.tenure_months input.horizon_months
      input.prepayment_plan "stay"
      (build_current_terms (add_cur_upfront input k).current_terms)
      (build_new_terms (add_cur_upfront input k).current_terms
        (add_cur_upfront input k).new_offer)
      [("EIBOR_1M", c1), ("EIBOR_3M", c3)]
      (input.recompute_policy.getD "on_reset_only")
      (input.auto_estimate_buyout_fees.getD true) =
      Except.ok
        { cashflows := recs,
          total_cash := pyRound2 (fin -
            fee_sum (option_fees input.principal_aed "stay"
              (build_current_terms input.current_terms)
              (build_new_terms input.current_terms input.new_offer)
              (input.auto_estimate_buyout_fees.getD true)) "upfront" +
            (fee_sum (option_fees input.principal_aed "stay"
              (build_current_terms input.current_terms)
              (build_new_terms input.current_terms input.new_offer)
              (input.auto_estimate_buyout_fees.getD true)) "upfront" + (k : ℚ) / 50)),
          applied_upfront_fees := pyRound2
            (fee_sum (option_fees input.principal_aed "stay"
              (build_current_terms input.current_terms)
              (build_new_terms input.current_terms input.new_offer)
              (input.auto_estimate_buyout_fees.getD true)) "upfront" + (k : ℚ) / 50),
          fees_list := (build_current_terms input.current_terms).fees ++ [extraFee k] } := by
    unfold run_option
    rw [show rate_for_month "stay"
      (build_current_terms (add_cur_upfront input k).current_terms)
      (build_new_terms (add_cur_upfront input k).current_terms
        (add_cur_upfront input k).new_offer)
      [("EIBOR_1M", c1), ("EIBOR_3M", c3)] 1 = Except.ok m1 from hr1]
    rw [ok_bind]
    rw [he1, ok_bind]
    rw [hup2, hOFstay2, hloopstay]
    rw [run_loop_total_shift hl1
      (fee_sum (option_fees input.principal_aed "stay"
        (build_current_terms input.current_terms)
        (build_new_terms input.current_terms input.new_offer)
        (input.auto_estimate_buyout_fees.getD true)) "upfront" + (k : ℚ) / 50)]
    rw [ok_bind]
  have hswitch2 : run_option input.principal_aed input.tenure_months input.horizon_months
      input.prepayment_plan "switch"
      (build_current_terms (add_cur_upfront input k).current_terms)
      (build_new_terms (add_cur_upfront input k).current_terms
        (add_cur_upfront input k).new_offer)
      [("EIBOR_1M", c1), ("EIBOR_3M", c3)]
      (input.recompute_policy.getD "on_reset_only")
      (input.auto_estimate_buyout_fees.getD true) = Except.ok switch := by
    rw [show build_new_terms (add_cur_upfront input k).current_terms
      (add_cur_upfront input k).new_offer =
      build_new_terms input.current_terms input.new_offer from rfl]
    refine Eq.trans ?_ h4
    unfold run_option
    rw [show rate_for_month "switch"
      (build_current_terms (add_cur_upfront input k).current_terms)
      (build_new_terms input.current_terms input.new_offer)
      [("EIBOR_1M", c1), ("EIBOR_3M", c3)] 1 =
      rate_for_month "switch" (build_current_terms input.current_terms)
        (build_new_terms input.current_terms input.new_offer)
        [("EIBOR_1M", c1), ("EIBOR_3M", c3)] 1 from rfl]
    rw [hOFswitch2]
    simp only [hloopswitch]
  refine ⟨assemble
    { cashflows := recs,
      total_cash := pyRound2 (fin -
        fee_sum (option_fees input.principal_aed "stay"
          (build_current_terms input.current_terms)
          (build_new_terms input.current_terms input.new_offer)
          (input.auto_estimate_buyout_fees.getD true)) "upfront" +
        (fee_sum (option_fees input.principal_aed "stay"
          (build_current_terms input.current_terms)
          (build_new_terms input.current_terms input.new_offer)
          (input.auto_estimate_buyout_fees.getD true)) "upfront" + (k : ℚ) / 50)),
      applied_upfront_fees := pyRound2
        (fee_sum (option_fees input.principal_aed "stay"
          (build_current_terms input.current_terms)
          (build_new_terms input.current_terms input.new_offer)
          (input.auto_estimate_buyout_fees.getD true)) "upfront" + (k : ℚ) / 50),
      fees_list := (build_current_terms input.current_terms).fees ++ [extraFee k] }
    switch, ?_, rfl, rfl, rfl, ?_, ?_⟩
  · unfold compare
    rw [show expectSome (dict_get (add_cur_upfront input k).rate_scenarios_base
      "EIBOR_1M") "KeyError: EIBOR_1M" = Except.ok c1 from expectSome_eq_ok.mpr h1]
    rw [ok_bind]
    rw [show expectSome (dict_get (add_cur_upfront input k).rate_scenarios_base
      "EIBOR_3M") "KeyError: EIBOR_3M" = Except.ok c3 from expectSome_eq_ok.mpr h2]
    rw [ok_bind]
    rw [show run_option (add_cur_upfront input k).principal_aed
      (add_cur_upfront input k).tenure_months (add_cur_upfront input k).horizon_months
      (add_cur_upfront input k).prepayment_plan "stay"
      (build_current_terms (add_cur_upfront input k).current_terms)
      (build_new_terms (add_cur_upfront input k).current_terms
        (add_cur_upfront input k).new_offer)
      [("EIBOR_1M", c1), ("EIBOR_3M", c3)]
      ((add_cur_upfront input k).recompute_policy.getD "on_reset_only")
      ((add_cur_upfront input k).auto_estimate_buyout_fees.getD true) = _ from hstay2]
    rw [ok_bind]
    rw [show run_option (add_cur_upfront input k).principal_aed
      (add_cur_upfront input k).tenure_months (add_cur_upfront input k).horizon_months
      (add_cur_upfront input k).prepayment_plan "switch"
      (build_current_terms (add_cur_upfront input k).current_terms)
      (build_new_terms (add_cur_upfront input k).current_terms
        (add_cur_upfront input k).new_offer)
      [("EIBOR_1M", c1), ("EIBOR_3M", c3)]
      ((add_cur_upfront input k).recompute_policy.getD "on_reset_only")
      ((add_cur_upfront input k).auto_estimate_buyout_fees.getD true) =
      Except.ok switch from hswitch2]
    rw [ok_bind]
  · show pyRound2 _ = pyRound2 fin + (k : ℚ) / 50
    rw [show (fin -
        fee_sum (option_fees input.principal_aed "stay"
          (build_current_terms input.current_terms)
          (build_new_terms input.current_terms input.new_offer)
          (input.auto_estimate_buyout_fees.getD true)) "upfront" +
        (fee_sum (option_fees input.principal_aed "stay"
          (build_current_terms input.current_terms)
          (build_new_terms input.current_terms input.new_offer)
          (input.auto_estimate_buyout_fees.getD true)) "upfront" + (k : ℚ) / 50)) =
      fin + (k : ℚ) / 50 from by ring]
    exact pyRound2_add_fifty fin k
  · show pyRound2 _ = pyRound2 _ + (k : ℚ) / 50
    exact pyRound2_add_fifty _ k

theorem mortgage_c10_witness :
    compare input_base = Except.ok res_c10 ∧
    ((∃ res2, compare (add_cur_upfront input_base 7) = Except.ok res2 ∧
      res2.monthly_cashflows = res_c10.monthly_cashflows ∧
      res2.summary.break_even_month = res_c10.summary.break_even_month ∧
      res2.summary.switch_total_cash_out_aed =
        res_c10.summary.switch_total_cash_out_aed ∧
      res2.summary.stay_total_cash_out_aed =
        res_c10.summary.stay_total_cash_out_aed + (7 : ℚ) / 50 ∧
      res2.upfront_stay = res_c10.upfront_stay + (7 : ℚ) / 50) ∧
    (compare inC10a).map
      (fun r => (r.summary.break_even_month, r.summary.recommendation)) =
      Except.ok (some 1, "stay") ∧
    (compare inC10b).map
      (fun r => (r.summary.break_even_month, r.summary.recommendation)) =
      Except.ok (none, "switch")) :=
  ⟨by decide, @mortgage_c10 input_base res_c10 7 (by decide)⟩

end Mortgage
